import Mathlib

/-!
Glide: the simulation core of `script.js`

A shallow embedding of the update engine of the game (`Game.start`, `Game.loop`,
`Game.update`, `Game.gameOver` and the entity classes they drive), followed by theorems
about it.

Modelling conventions.

* JavaScript numbers are modelled as exact rationals `ℚ`; rounding, infinities and `NaN`
  are outside the model.
* `Math.random()` is modelled by an explicit stream `Nat → ℚ` handed to each call of
  `update`; the draws are consumed in the order in which the source performs them.
* The control signal (`Input`) is an explicit argument of each step.
* Rendering, audio, the DOM and `localStorage` are external. Fields that are only read by
  `draw` (colours, the player's trail and hover phase, the orb's pulse phase) are not
  represented; the random draw that initialises the orb's pulse is still consumed.
* `requestAnimationFrame` is the external driver: `Game.loop` models one invocation of the
  callback.
-/

namespace Glide

/-! ## Utilities -/

/-- `function clamp(v, a, b) { return Math.max(a, Math.min(b, v)); }` -/
def clamp (v a b : ℚ) : ℚ := max a (min b v)

/-- `function rand(min, max) { return Math.random() * (max - min) + min; }`, with the value
of `Math.random()` passed as `u`. -/
def rand (u lo hi : ℚ) : ℚ := u * (hi - lo) + lo

/-- `function chance(p) { return Math.random() < p; }`, with the value of `Math.random()`
passed as `u`. -/
def chance (u p : ℚ) : Bool := decide (u < p)

/-- `Math.sign` on rationals. -/
def sign (v : ℚ) : ℚ := if 0 < v then 1 else if v < 0 then -1 else 0

/-- Axis-aligned rectangle as returned by the `getBounds` methods. -/
structure Rect where
  x : ℚ
  y : ℚ
  w : ℚ
  h : ℚ

/-- `function rectsOverlap(a, b)`. -/
def rectsOverlap (a b : Rect) : Bool :=
  decide (a.x < b.x + b.w) && decide (a.x + a.w > b.x) &&
    decide (a.y < b.y + b.h) && decide (a.y + a.h > b.y)

/-! ## Control signal -/

/-- The fields of `class Input` that `Player.update` reads. -/
structure Input where
  left : Bool
  right : Bool
  touchActive : Bool
  touchX : ℚ

/-! ## Entities -/

/-- The simulation fields of `class Player`. -/
structure Player where
  width : ℚ
  height : ℚ
  x : ℚ
  y : ℚ
  speed : ℚ
  maxSpeed : ℚ
  acc : ℚ
  friction : ℚ

/-- The constructor of `Player`; `gw`, `gh` are `game.width`, `game.height`. -/
def Player.new (gw gh : ℚ) : Player :=
  let bottomMargin := max 110 (gh * 0.14)
  { width := 34, height := 38, x := gw / 2, y := gh - bottomMargin, speed := 0,
    maxSpeed := 520, acc := 1800, friction := 1400 }

/-- The movement part of `Player.update(dt, input)`; `gw` is `this.game.width`. -/
def Player.update (p : Player) (gw dt : ℚ) (input : Input) : Player :=
  if input.touchActive then
    { p with
      x := clamp (input.touchX * gw) (p.width * 0.6) (gw - p.width * 0.6)
      speed := 0 }
  else
    let target : ℚ := (if input.left then -1 else 0) + (if input.right then 1 else 0)
    let s1 : ℚ :=
      if target ≠ 0 then p.speed + target * p.acc * dt
      else if |p.speed| < p.friction * dt then 0
      else p.speed - sign p.speed * p.friction * dt
    let s2 := clamp s1 (-p.maxSpeed) p.maxSpeed
    { p with
      speed := s2
      x := clamp (p.x + s2 * dt) (p.width * 0.6) (gw - p.width * 0.6) }

/-- `Player.getBounds()`: the hitbox shrunk to 90% of the nominal size. -/
def Player.getBounds (p : Player) : Rect :=
  { x := p.x - p.width * 0.45, y := p.y - p.height * 0.45, w := p.width * 0.9,
    h := p.height * 0.9 }

/-- The simulation fields of `class Obstacle`. -/
structure Obstacle where
  w : ℚ
  h : ℚ
  x : ℚ
  y : ℚ
  speed : ℚ
  a : ℚ

/-- The constructor of `Obstacle`: five draws `rnd n .. rnd (n+4)` in source order;
`gw`, `gspeed` are `game.width`, `game.speed`. -/
def Obstacle.new (gw gspeed : ℚ) (rnd : Nat → ℚ) (n : Nat) : Obstacle :=
  let w := rand (rnd n) 34 90
  let h := rand (rnd (n + 1)) 18 30
  let x := rand (rnd (n + 2)) (w / 2) (gw - w / 2)
  let y := -h - rand (rnd (n + 3)) 0 60
  let speed := rand (rnd (n + 4)) (gspeed * 0.85) (gspeed * 1.25)
  { w := w, h := h, x := x, y := y, speed := speed, a := 0 }

/-- `Obstacle.update(dt)`. -/
def Obstacle.update (o : Obstacle) (dt : ℚ) : Obstacle :=
  { o with y := o.y + o.speed * dt, a := min 1 (o.a + dt * 4) }

/-- `Obstacle.offscreen()`; `gh` is `this.game.height`. -/
def Obstacle.offscreen (o : Obstacle) (gh : ℚ) : Bool := decide (o.y - o.h > gh + 40)

/-- `Obstacle.getBounds()`. -/
def Obstacle.getBounds (o : Obstacle) : Rect :=
  { x := o.x - o.w / 2, y := o.y - o.h / 2, w := o.w, h := o.h }

/-- The simulation fields of `class Orb` (the cosmetic `pulse` phase is not represented). -/
structure Orb where
  r : ℚ
  x : ℚ
  y : ℚ
  speed : ℚ
  a : ℚ

/-- The constructor of `Orb`: draws `rnd n .. rnd (n+2)` for position and speed; the fourth
draw `rnd (n+3)` only feeds the cosmetic pulse phase. -/
def Orb.new (gw gspeed : ℚ) (rnd : Nat → ℚ) (n : Nat) : Orb :=
  let r : ℚ := 9
  { r := r
    x := rand (rnd n) (r + 6) (gw - r - 6)
    y := -r - rand (rnd (n + 1)) 20 120
    speed := rand (rnd (n + 2)) (gspeed * 0.8) (gspeed * 1.1)
    a := 0 }

/-- `Orb.update(dt)`. -/
def Orb.update (c : Orb) (dt : ℚ) : Orb :=
  { c with y := c.y + c.speed * dt, a := min 1 (c.a + dt * 4) }

/-- `Orb.offscreen()`; `gh` is `this.game.height`. -/
def Orb.offscreen (c : Orb) (gh : ℚ) : Bool := decide (c.y - c.r > gh + 40)

/-- `Orb.getBounds()`. -/
def Orb.getBounds (c : Orb) : Rect :=
  { x := c.x - c.r, y := c.y - c.r, w := c.r * 2, h := c.r * 2 }

/-- What a `FloatingText` displays: `+${Math.floor(bonus)}` or `x${multiplier.toFixed(1)}`
(the number is kept, not its rendering). -/
inductive Label where
  | bonus (n : ℤ)
  | mult (m : ℚ)

/-- The two effect classes, `EffectRing` and `FloatingText`. -/
inductive Effect where
  | ring (x y r maxR a : ℚ)
  | text (x y : ℚ) (label : Label) (a vy : ℚ)

/-- `new EffectRing(game, x, y, color)`. -/
def Effect.newRing (x y : ℚ) : Effect := Effect.ring x y 6 40 0.6

/-- `new FloatingText(game, x, y, text)`. -/
def Effect.newText (x y : ℚ) (label : Label) : Effect := Effect.text x y label 1 (-60)

/-- `EffectRing.update(dt)` and `FloatingText.update(dt)`. -/
def Effect.update (e : Effect) (dt : ℚ) : Effect :=
  match e with
  | Effect.ring x y r maxR a => Effect.ring x y (r + 180 * dt) maxR (a - 1.2 * dt)
  | Effect.text x y label a vy => Effect.text x (y + vy * dt) label (a - 1.5 * dt) vy

/-- `EffectRing.done()` and `FloatingText.done()`. -/
def Effect.done (e : Effect) : Bool :=
  match e with
  | Effect.ring _ _ r maxR a => decide (a ≤ 0) || decide (r ≥ maxR)
  | Effect.text _ _ _ a _ => decide (a ≤ 0)

/-! ## World state -/

/-- The simulation fields of `class Game`. `lastTs` is `_lastTs` (`none` for `undefined`). -/
structure Game where
  player : Player
  obstacles : List Obstacle
  orbs : List Orb
  effects : List Effect
  elapsed : ℚ
  running : Bool
  speed : ℚ
  difficulty : ℚ
  spawnCooldown : ℚ
  orbCooldown : ℚ
  score : ℚ
  best : ℚ
  multiplier : ℚ
  nearMissGrace : ℚ
  shakeTime : ℚ
  shakeMag : ℚ
  lastTs : Option ℚ

/-- `this.width`: `resize()`, the only writer besides the constructor (which writes the same
value), sets `this.width = 390`. -/
def Game.width (_g : Game) : ℚ := 390

/-- `this.height`: `resize()`, run by the constructor before anything reads the field, sets
`this.height = Math.round(this.width / ar)` with `ar = 9/16`. -/
def Game.height (g : Game) : ℚ := round (g.width / (9 / 16))

/-- The constructor of `Game` (after its call of `resize()`); `best` is the stored high
score. -/
def Game.new (best : ℚ) : Game :=
  { player := Player.new 390 (round ((390 : ℚ) / (9 / 16))),
    obstacles := [], orbs := [], effects := [], elapsed := 0, running := false,
    speed := 150, difficulty := 0, spawnCooldown := 0, orbCooldown := 2, score := 0,
    best := best, multiplier := 1, nearMissGrace := 0, shakeTime := 0, shakeMag := 0,
    lastTs := none }

/-- `Game.shake(magnitude, time)`. -/
def Game.shake (g : Game) (magnitude time : ℚ) : Game :=
  { g with shakeMag := max g.shakeMag magnitude, shakeTime := max g.shakeTime time }

/-- `Game.stop()`. -/
def Game.stop (g : Game) : Game := { g with running := false }

/-- `Game.gameOver()`: stops the session and records the floored score as best. -/
def Game.gameOver (g : Game) : Game :=
  let g1 := g.stop
  let final : ℚ := (⌊g1.score⌋ : ℤ)
  if final > g1.best then { g1 with best := final } else g1

/-- `Game.spawnObstacle()`, drawing from `rnd` at offset `n`. -/
def Game.spawnObstacle (g : Game) (rnd : Nat → ℚ) (n : Nat) : Game :=
  { g with obstacles := g.obstacles ++ [Obstacle.new g.width g.speed rnd n] }

/-- `Game.spawnOrb()`, drawing from `rnd` at offset `n`. -/
def Game.spawnOrb (g : Game) (rnd : Nat → ℚ) (n : Nat) : Game :=
  { g with orbs := g.orbs ++ [Orb.new g.width g.speed rnd n] }

/-! ## The step function, phase by phase -/

/-- Lines 347-349 of `update`: elapsed time and the difficulty/speed ramp. -/
def Game.ramp (g : Game) (dt : ℚ) : Game :=
  let elapsed := g.elapsed + dt
  let difficulty := min 1 (elapsed / 90)
  { g with elapsed := elapsed, difficulty := difficulty, speed := 150 + 320 * difficulty }

/-- Lines 351-353 of `update`: the obstacle spawner. Returns the state and how many random
draws were consumed. -/
def Game.tickSpawn (g : Game) (dt : ℚ) (rnd : Nat → ℚ) : Game × Nat :=
  let g1 := { g with spawnCooldown := g.spawnCooldown - dt }
  let spawnEvery := clamp (0.8 - g1.difficulty * 0.55) 0.18 0.8
  if g1.spawnCooldown ≤ 0 then
    ({ g1.spawnObstacle rnd 0 with spawnCooldown := spawnEvery }, 5)
  else (g1, 0)

/-- Lines 355-357 of `update`: the orb spawner, drawing from `rnd` at offset `n`. -/
def Game.tickOrb (g : Game) (dt : ℚ) (rnd : Nat → ℚ) (n : Nat) : Game :=
  let g1 := { g with orbCooldown := g.orbCooldown - dt }
  let orbEvery := clamp (2.8 - g1.difficulty * 1.5) 0.9 3.0
  if g1.orbCooldown ≤ 0 then
    let g2 := if chance (rnd n) 0.8 then g1.spawnOrb rnd (n + 1) else g1
    { g2 with orbCooldown := orbEvery }
  else g1

/-- Lines 359-361 of `update`: the player, then every obstacle and orb, advance by `dt`. -/
def Game.moveAll (g : Game) (dt : ℚ) (input : Input) : Game :=
  { g with
    player := g.player.update g.width dt input
    obstacles := g.obstacles.map (fun o => o.update dt)
    orbs := g.orbs.map (fun c => c.update dt) }

/-- Lines 347-361 of `update`: the world after ramp, spawners and movement, before any
collision test. -/
def Game.advance (g : Game) (dt : ℚ) (input : Input) (rnd : Nat → ℚ) : Game :=
  let s := (g.ramp dt).tickSpawn dt rnd
  (s.1.tickOrb dt rnd s.2).moveAll dt input

/-- Body of the `if (rectsOverlap(pb, orb.getBounds()))` at lines 366-373, for the orb at
index `i`. -/
def Game.collectOrb (g : Game) (i : Nat) (orb : Orb) : Game :=
  let bonus := 30 * g.multiplier
  { g with
    orbs := g.orbs.eraseIdx i
    score := g.score + bonus
    effects := g.effects ++
      [Effect.newRing orb.x orb.y, Effect.newText orb.x (orb.y - 6) (Label.bonus ⌊bonus⌋)] }

/-- The loop of lines 364-374, `for (let i = this.orbs.length - 1; i >= 0; i--)`:
`orbLoop pb (i + 1) g` runs the iterations for indices `i, i - 1, .., 0`. -/
def Game.orbLoop (pb : Rect) : Nat → Game → Game
  | 0, g => g
  | i + 1, g =>
    match g.orbs[i]? with
    | none => Game.orbLoop pb i g
    | some orb =>
      if rectsOverlap pb orb.getBounds then Game.orbLoop pb i (g.collectOrb i orb)
      else Game.orbLoop pb i g

/-- Lines 363-374 of `update`: the pickup pass. -/
def Game.orbPass (g : Game) : Game := Game.orbLoop g.player.getBounds g.orbs.length g

/-- The condition of the `if` at line 384 (with `verticalClose` and `horizontalGap` of
lines 382-383). -/
def nearMiss (pb obb : Rect) : Bool :=
  let verticalClose := decide (|(obb.y + obb.h / 2) - (pb.y + pb.h / 2)| < 22)
  let horizontalGap := |(obb.x + obb.w / 2) - (pb.x + pb.w / 2)|
  verticalClose && decide (horizontalGap < 18 + pb.w / 2 + obb.w / 2) &&
    decide (horizontalGap > pb.w / 2 + obb.w / 2 - 14)

/-- Body of the `if (this.nearMissGrace <= 0)` at lines 386-390. -/
def Game.nearMissReward (g : Game) : Game :=
  let g1 := { g with multiplier := clamp (g.multiplier + 0.1) 1 4.0 }
  let g2 := { g1 with nearMissGrace := 0.25 }
  let g3 := { g2 with
    effects := g2.effects ++
      [Effect.newText g2.player.x (g2.player.y - 20) (Label.mult g2.multiplier)] }
  g3.shake 3 0.15

/-- Lines 382-392: what one iteration of the obstacle loop does with a non-overlapping
obstacle whose bounds are `obb`. -/
def Game.nearMissStep (g : Game) (pb obb : Rect) : Game :=
  if nearMiss pb obb then
    if g.nearMissGrace ≤ 0 then g.nearMissReward else g
  else g

/-- The loop of lines 377-393 over the obstacles in iteration order (last index first); the
Boolean is `hit`, and a hit leaves the remaining obstacles unexamined (`break`). -/
def Game.obstacleLoop (pb : Rect) : List Obstacle → Game → Game × Bool
  | [], g => (g, false)
  | ob :: rest, g =>
    if rectsOverlap pb ob.getBounds then (g, true)
    else Game.obstacleLoop pb rest (g.nearMissStep pb ob.getBounds)

/-- Lines 376-393 of `update`: the obstacle pass. The array is not modified by the loop, so
iterating `i = length - 1 .. 0` is iterating the reversed list. -/
def Game.obstaclePass (g : Game) : Game × Bool :=
  Game.obstacleLoop g.player.getBounds g.obstacles.reverse g

/-- Lines 397-410 of `update`: the rest of a step in which no obstacle was hit. -/
def Game.settle (g : Game) (dt : ℚ) : Game :=
  let g1 := { g with nearMissGrace := g.nearMissGrace - dt }
  let g2 := { g1 with
    obstacles := g1.obstacles.filter (fun o => !o.offscreen g1.height)
    orbs := g1.orbs.filter (fun o => !o.offscreen g1.height) }
  let g3 := { g2 with
    effects := (g2.effects.map (fun e => Effect.update e dt)).filter (fun e => !Effect.done e) }
  let g4 := { g3 with score := g3.score + (12 + g3.difficulty * 24) * dt * g3.multiplier }
  let g5 := if g4.score < 0 then { g4 with score := 0 } else g4
  if g5.shakeTime > 0 then
    let g6 := { g5 with shakeTime := g5.shakeTime - dt }
    if g6.shakeTime ≤ 0 then { g6 with shakeTime := 0, shakeMag := 0 } else g6
  else g5

/-- `Game.update(dt)`, with the control signal and the random draws of this call. -/
def Game.update (g : Game) (dt : ℚ) (input : Input) (rnd : Nat → ℚ) : Game :=
  let s := ((g.advance dt input rnd).orbPass).obstaclePass
  if s.2 then (s.1.shake 8 0.3).gameOver else s.1.settle dt

/-- The delta that `Game.loop(ts)` computes at lines 336-337; a falsy `_lastTs`
(`undefined` or `0`) is first replaced by `ts`. -/
def Game.loopDt (g : Game) (ts : ℚ) : ℚ :=
  let last := match g.lastTs with
    | none => ts
    | some l => if l = 0 then ts else l
  min 0.033 ((ts - last) / 1000)

/-- One invocation of `Game.loop(ts)` (the drawing and the request for the next frame are
external). -/
def Game.loop (g : Game) (ts : ℚ) (input : Input) (rnd : Nat → ℚ) : Game :=
  let dt := g.loopDt ts
  let g1 := { g with lastTs := some ts }
  if !g1.running then g1 else g1.update dt input rnd

/-- The assignments of `Game.start()` at lines 306-320, before its call of `loop`. -/
def Game.reset (g : Game) : Game :=
  { g with
    running := true, elapsed := 0, difficulty := 0, spawnCooldown := 0, orbCooldown := 1.5,
    score := 0, multiplier := 1, nearMissGrace := 0,
    player := Player.new g.width g.height, obstacles := [], orbs := [], effects := [],
    shakeTime := 0, shakeMag := 0, lastTs := none }

/-- `Game.start()`; `now` is `performance.now()`, and `input`, `rnd` feed the first step,
which `start` runs through `this.loop(performance.now())`. -/
def Game.start (g : Game) (now : ℚ) (input : Input) (rnd : Nat → ℚ) : Game :=
  g.reset.loop now input rnd

/-- One driver step: the delta, the control signal and the random draws of one `update`. -/
structure Step where
  dt : ℚ
  input : Input
  rnd : Nat → ℚ

/-- A sequence of `update` calls. -/
def Game.run (g : Game) : List Step → Game
  | [] => g
  | s :: rest => Game.run (g.update s.dt s.input s.rnd) rest

/-! ## Derived notions used by the statements -/

/-- The session invariant on score and multiplier. -/
def Game.Inv (g : Game) : Prop := 1 ≤ g.multiplier ∧ g.multiplier ≤ 4 ∧ 0 ≤ g.score

/-- The obstacles that the loop of lines 377-393 gets to examine for a near miss: those
before the first overlapping one, in iteration order. -/
def Game.examined (pb : Rect) (obs : List Obstacle) : List Obstacle :=
  obs.takeWhile (fun ob => !rectsOverlap pb ob.getBounds)

/-- Whether the near-miss reward of lines 386-390 is applied during `update(dt)` from `g`:
the grace timer has run out when the obstacle pass begins and some examined obstacle is in
the near-miss band. -/
def Game.nearMissFires (g : Game) (dt : ℚ) (input : Input) (rnd : Nat → ℚ) : Bool :=
  let g2 := (g.advance dt input rnd).orbPass
  let pb := g2.player.getBounds
  decide (g2.nearMissGrace ≤ 0) &&
    (Game.examined pb g2.obstacles.reverse).any (fun ob => nearMiss pb ob.getBounds)

/-- What every running state left by a completed `update` satisfies: both spawn timers are
armed, the score is non-negative, the player stands where the lane clamp put it, no orb
touches the player and nothing in the collections is off screen. -/
def Game.Settled (g : Game) : Prop :=
  0 < g.spawnCooldown ∧ 0 < g.orbCooldown ∧ 0 ≤ g.score ∧
  (∃ v, g.player.x = clamp v (g.player.width * 0.6) (g.width - g.player.width * 0.6)) ∧
  (∀ c ∈ g.orbs, rectsOverlap g.player.getBounds c.getBounds = false) ∧
  (∀ o ∈ g.obstacles, o.offscreen g.height = false) ∧
  (∀ c ∈ g.orbs, c.offscreen g.height = false)

/-- No key pressed, no pointer held. -/
def idle : Input := { left := false, right := false, touchActive := false, touchX := 0 }

/-- Pointer held at the fraction `t` of the field width. -/
def touchAt (t : ℚ) : Input := { left := false, right := false, touchActive := true, touchX := t }

/-- A constant stream of random draws. -/
def rndConst (u : ℚ) : Nat → ℚ := fun _ => u

/-- A fresh session, as `start()` leaves it before its call of `loop`. -/
def fresh : Game := (Game.new 0).reset

/-- A running session with one obstacle lying on the player. -/
def crashState : Game :=
  { fresh with
    obstacles := [{ w := 40, h := 20, x := 195, y := 580, speed := 150, a := 1 }]
    spawnCooldown := 1 / 2 }

/-- The state in which `crashState` ends its next step: a terminated session. -/
def crashed : Game := crashState.update 0 idle (rndConst (1 / 2))

/-- A running session right after `start()` has returned. -/
def started : Game := (Game.new 0).start 0 idle (rndConst (1 / 2))

/-- The elapsed time added by a sequence of steps. -/
def dtSum : List Step → ℚ
  | [] => 0
  | s :: rest => s.dt + dtSum rest

/-- Random draws that make every spawned obstacle 84.4 wide and 18 high, at the left edge
of the field, at the lowest speed, and that let no orb spawn. -/
def demoRnd : Nat → ℚ := fun n => if n = 0 ∨ n = 5 then 9 / 10 else 0

/-- A step with the pointer held at the right edge of the field. -/
def far (dt : ℚ) : Step := { dt := dt, input := touchAt 1, rnd := demoRnd }

/-- A step with the pointer held where the player stands 60 to the right of the centre of
the obstacles that `demoRnd` spawns. -/
def near (dt : ℚ) : Step := { dt := dt, input := touchAt (1022 / 3900), rnd := demoRnd }

/-- A session started with `start()`, the pointer held at the right edge. -/
def demoStart : Game := (Game.new 0).start 0 (touchAt 1) demoRnd

/-- 137 steps of 33 ms that bring the first obstacle down to the player's height. -/
def demoPre : List Step := List.replicate 137 (far 0.033)

/-- Six steps of 33 ms and one of 19 ms next to the obstacle. -/
def demoMid : List Step := List.replicate 6 (near 0.033) ++ [near 0.019]

/-- A running session with one motionless obstacle beside the player, inside the near-miss
band, and both spawn timers far from running out. -/
def nearState : Game :=
  { fresh with
    obstacles := [{ w := 40, h := 20, x := 235.3, y := 583, speed := 0, a := 1 }]
    spawnCooldown := 10
    orbCooldown := 10 }

/-- A step of length `dt` with no control input. -/
def coast (dt : ℚ) : Step := { dt := dt, input := idle, rnd := rndConst (1 / 2) }

/-- A running session started at timestamp 1000 (so that `_lastTs` is truthy). -/
def lateStart : Game := (Game.new 0).start 1000 idle (rndConst (1 / 2))

/-- A running session with `multiplier = 2` and one orb lying on the player. -/
def pickupState : Game :=
  { fresh with
    multiplier := 2
    orbs := [{ r := 9, x := 195, y := 583, speed := 0, a := 1 }]
    spawnCooldown := 10
    orbCooldown := 10 }

/-- The near-miss condition with the lower bound of the band dropped: the `if` of line 384
without its last conjunct `horizontalGap > (pb.w/2 + obb.w/2 - 14)`. -/
def nearMissNoLower (pb obb : Rect) : Bool :=
  let verticalClose := decide (|(obb.y + obb.h / 2) - (pb.y + pb.h / 2)| < 22)
  let horizontalGap := |(obb.x + obb.w / 2) - (pb.x + pb.w / 2)|
  verticalClose && decide (horizontalGap < 18 + pb.w / 2 + obb.w / 2)

/-- The near-miss band as the sum of the half-widths bounds it from below: vertical
distance below 22 and `half-widths sum ≤ horizontal distance < half-widths sum + 18`. -/
def nearMissBand (pb obb : Rect) : Bool :=
  let verticalClose := decide (|(obb.y + obb.h / 2) - (pb.y + pb.h / 2)| < 22)
  let horizontalGap := |(obb.x + obb.w / 2) - (pb.x + pb.w / 2)|
  verticalClose && decide (pb.w / 2 + obb.w / 2 ≤ horizontalGap) &&
    decide (horizontalGap < pb.w / 2 + obb.w / 2 + 18)

/-- `nearMissStep` with the lower bound of the band dropped. -/
def Game.nearMissStepNoLower (g : Game) (pb obb : Rect) : Game :=
  if nearMissNoLower pb obb then
    if g.nearMissGrace ≤ 0 then g.nearMissReward else g
  else g

/-- `obstacleLoop` with the lower bound of the band dropped. -/
def Game.obstacleLoopNoLower (pb : Rect) : List Obstacle → Game → Game × Bool
  | [], g => (g, false)
  | ob :: rest, g =>
    if rectsOverlap pb ob.getBounds then (g, true)
    else Game.obstacleLoopNoLower pb rest (g.nearMissStepNoLower pb ob.getBounds)

/-- `obstaclePass` with the lower bound of the band dropped. -/
def Game.obstaclePassNoLower (g : Game) : Game × Bool :=
  Game.obstacleLoopNoLower g.player.getBounds g.obstacles.reverse g

/-- `update` with the lower bound of the band dropped. -/
def Game.updateNoLower (g : Game) (dt : ℚ) (input : Input) (rnd : Nat → ℚ) : Game :=
  let s := ((g.advance dt input rnd).orbPass).obstaclePassNoLower
  if s.2 then (s.1.shake 8 0.3).gameOver else s.1.settle dt

/-- A running session in which one obstacle lies on the player while another, still on
screen, is about to leave the field. -/
def crashLeaveState : Game :=
  { fresh with
    obstacles := [{ w := 40, h := 20, x := 50, y := 752, speed := 150, a := 1 },
                  { w := 40, h := 20, x := 195, y := 580, speed := 150, a := 1 }]
    spawnCooldown := 1 / 2 }

/-! ## Basic facts about the phases -/

theorem clamp_ge (v a b : ℚ) : a ≤ clamp v a b := le_max_left _ _

theorem clamp_le (v a b : ℚ) (h : a ≤ b) : clamp v a b ≤ b :=
  max_le h (min_le_left _ _)

theorem clamp_eq_self (v a b : ℚ) (h1 : a ≤ v) (h2 : v ≤ b) : clamp v a b = v := by
  unfold clamp
  rw [min_eq_right h2, max_eq_right h1]

theorem height_eq (g : Game) : g.height = 693 := by
  unfold Game.height Game.width
  decide!

theorem advance_multiplier (g : Game) (dt : ℚ) (input : Input) (rnd : Nat → ℚ) :
    (g.advance dt input rnd).multiplier = g.multiplier := by
  simp only [Game.advance, Game.moveAll, Game.tickOrb, Game.tickSpawn, Game.ramp,
    Game.spawnObstacle, Game.spawnOrb]
  split_ifs <;> rfl

theorem advance_score (g : Game) (dt : ℚ) (input : Input) (rnd : Nat → ℚ) :
    (g.advance dt input rnd).score = g.score := by
  simp only [Game.advance, Game.moveAll, Game.tickOrb, Game.tickSpawn, Game.ramp,
    Game.spawnObstacle, Game.spawnOrb]
  split_ifs <;> rfl

theorem advance_nearMissGrace (g : Game) (dt : ℚ) (input : Input) (rnd : Nat → ℚ) :
    (g.advance dt input rnd).nearMissGrace = g.nearMissGrace := by
  simp only [Game.advance, Game.moveAll, Game.tickOrb, Game.tickSpawn, Game.ramp,
    Game.spawnObstacle, Game.spawnOrb]
  split_ifs <;> rfl

theorem advance_elapsed (g : Game) (dt : ℚ) (input : Input) (rnd : Nat → ℚ) :
    (g.advance dt input rnd).elapsed = g.elapsed + dt := by
  simp only [Game.advance, Game.moveAll, Game.tickOrb, Game.tickSpawn, Game.ramp,
    Game.spawnObstacle, Game.spawnOrb]
  split_ifs <;> rfl

theorem advance_difficulty (g : Game) (dt : ℚ) (input : Input) (rnd : Nat → ℚ) :
    (g.advance dt input rnd).difficulty = min 1 ((g.elapsed + dt) / 90) := by
  simp only [Game.advance, Game.moveAll, Game.tickOrb, Game.tickSpawn, Game.ramp,
    Game.spawnObstacle, Game.spawnOrb]
  split_ifs <;> rfl

theorem advance_speed (g : Game) (dt : ℚ) (input : Input) (rnd : Nat → ℚ) :
    (g.advance dt input rnd).speed = 150 + 320 * min 1 ((g.elapsed + dt) / 90) := by
  simp only [Game.advance, Game.moveAll, Game.tickOrb, Game.tickSpawn, Game.ramp,
    Game.spawnObstacle, Game.spawnOrb]
  split_ifs <;> rfl

theorem advance_running (g : Game) (dt : ℚ) (input : Input) (rnd : Nat → ℚ) :
    (g.advance dt input rnd).running = g.running := by
  simp only [Game.advance, Game.moveAll, Game.tickOrb, Game.tickSpawn, Game.ramp,
    Game.spawnObstacle, Game.spawnOrb]
  split_ifs <;> rfl

theorem advance_player (g : Game) (dt : ℚ) (input : Input) (rnd : Nat → ℚ) :
    (g.advance dt input rnd).player = g.player.update g.width dt input := by
  simp only [Game.advance, Game.moveAll, Game.tickOrb, Game.tickSpawn, Game.ramp,
    Game.spawnObstacle, Game.spawnOrb]
  split_ifs <;> rfl

/-! ### The pickup loop -/

theorem orbLoop_frame (pb : Rect) (i : Nat) (g : Game) :
    (Game.orbLoop pb i g).multiplier = g.multiplier ∧
    (Game.orbLoop pb i g).player = g.player ∧
    (Game.orbLoop pb i g).obstacles = g.obstacles ∧
    (Game.orbLoop pb i g).nearMissGrace = g.nearMissGrace ∧
    (Game.orbLoop pb i g).running = g.running ∧
    (Game.orbLoop pb i g).elapsed = g.elapsed ∧
    (Game.orbLoop pb i g).difficulty = g.difficulty ∧
    (Game.orbLoop pb i g).speed = g.speed ∧
    (Game.orbLoop pb i g).spawnCooldown = g.spawnCooldown ∧
    (Game.orbLoop pb i g).orbCooldown = g.orbCooldown := by
  induction i generalizing g with
  | zero => simp [Game.orbLoop]
  | succ i ih =>
    unfold Game.orbLoop
    split
    · exact ih g
    · split
      · rename_i orb _ _
        have h := ih (g.collectOrb i orb)
        simpa [Game.collectOrb] using h
      · exact ih g

/-- The pickup loop run over the indices below `i`: the orbs below `i` that overlap are
gone, the rest keep their order, and each removed orb added `30 * multiplier`. -/
theorem orbLoop_spec (pb : Rect) (i : Nat) (g : Game) (hi : i ≤ g.orbs.length) :
    (Game.orbLoop pb i g).orbs =
        (g.orbs.take i).filter (fun c => !rectsOverlap pb c.getBounds) ++ g.orbs.drop i ∧
    (Game.orbLoop pb i g).score =
        g.score + 30 * g.multiplier *
          ((g.orbs.take i).countP (fun c => rectsOverlap pb c.getBounds) : ℕ) := by
  induction i generalizing g with
  | zero => simp [Game.orbLoop]
  | succ i ih =>
    have hlt : i < g.orbs.length := hi
    unfold Game.orbLoop
    rw [List.getElem?_eq_getElem hlt]
    simp only
    have htake : g.orbs.take (i + 1) = g.orbs.take i ++ [g.orbs[i]] := by
      rw [List.take_succ, List.getElem?_eq_getElem hlt]; rfl
    split
    · rename_i hov
      have hlen : i ≤ (g.collectOrb i g.orbs[i]).orbs.length := by
        simp only [Game.collectOrb, List.length_eraseIdx, hlt, if_true]
        omega
      obtain ⟨h1, h2⟩ := ih (g.collectOrb i g.orbs[i]) hlen
      constructor
      · rw [h1, htake]
        simp only [Game.collectOrb, List.filter_append, List.filter_cons, hov,
          Bool.not_true, List.filter_nil, List.append_nil]
        rw [List.eraseIdx_eq_take_drop_succ, List.take_append_of_le_length (by simp; omega),
          List.take_take, min_self, List.drop_append_of_le_length (by simp; omega)]
        simp [List.take_length, hlt.le]
      · rw [h2, htake]
        simp only [Game.collectOrb, List.countP_append, List.countP_cons, hov, if_true,
          List.countP_nil]
        rw [List.eraseIdx_eq_take_drop_succ, List.take_append_of_le_length (by simp; omega),
          List.take_take, min_self]
        push_cast
        ring
    · rename_i hov
      obtain ⟨h1, h2⟩ := ih g hlt.le
      constructor
      · rw [h1, htake]
        simp only [List.filter_append, List.filter_cons, hov, Bool.not_false, if_true,
          List.filter_nil, List.append_assoc, List.singleton_append]
        rw [List.drop_eq_getElem_cons hlt]
      · rw [h2, htake]
        simp only [List.countP_append, List.countP_cons, List.countP_nil, hov]
        simp

/-! ### The obstacle loop -/

theorem nearMissReward_nearMissGrace (g : Game) : g.nearMissReward.nearMissGrace = 0.25 := rfl

theorem nearMissReward_multiplier (g : Game) :
    g.nearMissReward.multiplier = clamp (g.multiplier + 0.1) 1 4.0 := rfl

theorem nearMissReward_score (g : Game) : g.nearMissReward.score = g.score := rfl

/-- The state after the obstacle loop: the reward is applied once if the grace timer has run
out and an examined obstacle is in the near-miss band, and nothing else changes. -/
theorem obstacleLoop_fst (pb : Rect) (l : List Obstacle) (g : Game) :
    (Game.obstacleLoop pb l g).1 =
      if g.nearMissGrace ≤ 0 ∧
          (Game.examined pb l).any (fun ob => nearMiss pb ob.getBounds) = true
      then g.nearMissReward else g := by
  induction l generalizing g with
  | nil => simp [Game.obstacleLoop, Game.examined]
  | cons ob rest ih =>
    unfold Game.obstacleLoop
    by_cases hov : rectsOverlap pb ob.getBounds = true
    · simp [hov, Game.examined, List.takeWhile_cons]
    · simp only [hov, if_false, Bool.false_eq_true]
      rw [ih]
      have hex : Game.examined pb (ob :: rest) = ob :: Game.examined pb rest := by
        simp [Game.examined, List.takeWhile_cons, hov]
      rw [hex, List.any_cons]
      unfold Game.nearMissStep
      by_cases hnm : nearMiss pb ob.getBounds = true
      · by_cases hg : g.nearMissGrace ≤ 0
        · have h25 : ¬ g.nearMissReward.nearMissGrace ≤ 0 := by
            rw [nearMissReward_nearMissGrace]; norm_num
          simp [hnm, hg, h25]
        · simp [hnm, hg]
      · simp [hnm]

/-- The `hit` flag after the obstacle loop: some obstacle overlaps the player's hitbox. -/
theorem obstacleLoop_snd (pb : Rect) (l : List Obstacle) (g : Game) :
    (Game.obstacleLoop pb l g).2 = l.any (fun ob => rectsOverlap pb ob.getBounds) := by
  induction l generalizing g with
  | nil => simp [Game.obstacleLoop]
  | cons ob rest ih =>
    unfold Game.obstacleLoop
    by_cases hov : rectsOverlap pb ob.getBounds = true
    · simp [hov]
    · simp only [hov, if_false, Bool.false_eq_true]
      rw [ih]
      simp [hov]

theorem obstaclePass_cases (g : Game) :
    g.obstaclePass.1 = g ∨ g.obstaclePass.1 = g.nearMissReward := by
  unfold Game.obstaclePass
  rw [obstacleLoop_fst]
  split_ifs
  · exact Or.inr rfl
  · exact Or.inl rfl

/-! ### The tail of the step -/

theorem settle_multiplier (g : Game) (dt : ℚ) : (g.settle dt).multiplier = g.multiplier := by
  simp only [Game.settle]
  split_ifs <;> rfl

theorem settle_score (g : Game) (dt : ℚ) :
    (g.settle dt).score = max 0 (g.score + (12 + g.difficulty * 24) * dt * g.multiplier) := by
  simp only [Game.settle]
  split_ifs with h1 h2 h3 h4 h5 <;> simp only <;>
    first
      | exact (max_eq_left (le_of_lt h1)).symm
      | exact (max_eq_right (not_lt.mp h1)).symm

theorem settle_running (g : Game) (dt : ℚ) : (g.settle dt).running = g.running := by
  simp only [Game.settle]
  split_ifs <;> rfl

theorem settle_elapsed (g : Game) (dt : ℚ) : (g.settle dt).elapsed = g.elapsed := by
  simp only [Game.settle]
  split_ifs <;> rfl

theorem settle_difficulty (g : Game) (dt : ℚ) : (g.settle dt).difficulty = g.difficulty := by
  simp only [Game.settle]
  split_ifs <;> rfl

theorem settle_speed (g : Game) (dt : ℚ) : (g.settle dt).speed = g.speed := by
  simp only [Game.settle]
  split_ifs <;> rfl

theorem settle_nearMissGrace (g : Game) (dt : ℚ) :
    (g.settle dt).nearMissGrace = g.nearMissGrace - dt := by
  simp only [Game.settle]
  split_ifs <;> rfl

theorem gameOver_running (g : Game) : g.gameOver.running = false := by
  simp only [Game.gameOver, Game.stop]
  split_ifs <;> rfl

theorem gameOver_multiplier (g : Game) : g.gameOver.multiplier = g.multiplier := by
  simp only [Game.gameOver, Game.stop]
  split_ifs <;> rfl

theorem gameOver_score (g : Game) : g.gameOver.score = g.score := by
  simp only [Game.gameOver, Game.stop]
  split_ifs <;> rfl

theorem gameOver_elapsed (g : Game) : g.gameOver.elapsed = g.elapsed := by
  simp only [Game.gameOver, Game.stop]
  split_ifs <;> rfl

theorem gameOver_difficulty (g : Game) : g.gameOver.difficulty = g.difficulty := by
  simp only [Game.gameOver, Game.stop]
  split_ifs <;> rfl

theorem gameOver_speed (g : Game) : g.gameOver.speed = g.speed := by
  simp only [Game.gameOver, Game.stop]
  split_ifs <;> rfl

theorem gameOver_nearMissGrace (g : Game) : g.gameOver.nearMissGrace = g.nearMissGrace := by
  simp only [Game.gameOver, Game.stop]
  split_ifs <;> rfl

/-! ### Score and multiplier through a step -/

theorem orbPass_multiplier (g : Game) : g.orbPass.multiplier = g.multiplier :=
  (orbLoop_frame _ _ g).1

theorem orbPass_score (g : Game) :
    g.orbPass.score = g.score + 30 * g.multiplier *
      (g.orbs.countP (fun c => rectsOverlap g.player.getBounds c.getBounds) : ℕ) := by
  have h := (orbLoop_spec g.player.getBounds g.orbs.length g le_rfl).2
  rw [List.take_length] at h
  exact h

theorem inv_nearMissReward (g : Game) (h : g.Inv) : g.nearMissReward.Inv := by
  obtain ⟨_, _, h3⟩ := h
  refine ⟨?_, ?_, ?_⟩
  · rw [nearMissReward_multiplier]; exact clamp_ge _ _ _
  · rw [nearMissReward_multiplier]
    have := clamp_le (g.multiplier + 0.1) 1 4.0 (by norm_num)
    norm_num at this ⊢
    exact this
  · rw [nearMissReward_score]; exact h3

theorem inv_orbPass (g : Game) (h : g.Inv) : g.orbPass.Inv := by
  obtain ⟨h1, h2, h3⟩ := h
  refine ⟨?_, ?_, ?_⟩
  · rw [orbPass_multiplier]; exact h1
  · rw [orbPass_multiplier]; exact h2
  · rw [orbPass_score]
    have : (0 : ℚ) ≤ 30 * g.multiplier *
        (g.orbs.countP (fun c => rectsOverlap g.player.getBounds c.getBounds) : ℕ) := by
      have hc : (0 : ℚ) ≤
          (g.orbs.countP (fun c => rectsOverlap g.player.getBounds c.getBounds) : ℕ) :=
        Nat.cast_nonneg _
      have hm : (0 : ℚ) ≤ 30 * g.multiplier := by linarith
      exact mul_nonneg hm hc
    linarith

theorem inv_update (g : Game) (dt : ℚ) (input : Input) (rnd : Nat → ℚ) (h : g.Inv) :
    (g.update dt input rnd).Inv := by
  have ha : (g.advance dt input rnd).Inv := by
    unfold Game.Inv at h ⊢
    rw [advance_multiplier, advance_score]; exact h
  have hp := inv_orbPass _ ha
  have hs : ((g.advance dt input rnd).orbPass.obstaclePass.1).Inv := by
    rcases obstaclePass_cases (g.advance dt input rnd).orbPass with h | h
    · rw [h]; exact hp
    · rw [h]; exact inv_nearMissReward _ hp
  unfold Game.update
  simp only
  split_ifs
  · unfold Game.Inv at hs ⊢
    rw [gameOver_multiplier, gameOver_score]
    exact hs
  · unfold Game.Inv at hs ⊢
    rw [settle_multiplier, settle_score]
    exact ⟨hs.1, hs.2.1, le_max_left _ _⟩

theorem inv_reset (g : Game) : g.reset.Inv := by
  unfold Game.Inv Game.reset
  norm_num

theorem inv_loop (g : Game) (ts : ℚ) (input : Input) (rnd : Nat → ℚ) (h : g.Inv) :
    (g.loop ts input rnd).Inv := by
  unfold Game.loop
  simp only
  split_ifs
  · exact h
  · exact inv_update _ _ _ _ h

/-! ### Frames -/

theorem obstaclePass_frame (g : Game) :
    g.obstaclePass.1.player = g.player ∧ g.obstaclePass.1.obstacles = g.obstacles ∧
    g.obstaclePass.1.orbs = g.orbs ∧ g.obstaclePass.1.score = g.score ∧
    g.obstaclePass.1.spawnCooldown = g.spawnCooldown ∧
    g.obstaclePass.1.orbCooldown = g.orbCooldown ∧
    g.obstaclePass.1.running = g.running ∧ g.obstaclePass.1.elapsed = g.elapsed ∧
    g.obstaclePass.1.difficulty = g.difficulty ∧ g.obstaclePass.1.speed = g.speed := by
  rcases obstaclePass_cases g with h | h <;> rw [h] <;>
    exact ⟨rfl, rfl, rfl, rfl, rfl, rfl, rfl, rfl, rfl, rfl⟩

theorem settle_frame (g : Game) (dt : ℚ) :
    (g.settle dt).player = g.player ∧
    (g.settle dt).obstacles = g.obstacles.filter (fun o => !o.offscreen g.height) ∧
    (g.settle dt).orbs = g.orbs.filter (fun o => !o.offscreen g.height) ∧
    (g.settle dt).spawnCooldown = g.spawnCooldown ∧
    (g.settle dt).orbCooldown = g.orbCooldown := by
  simp only [Game.settle]
  split_ifs <;> exact ⟨rfl, rfl, rfl, rfl, rfl⟩

theorem shake_frame (g : Game) (m t : ℚ) :
    (g.shake m t).player = g.player ∧ (g.shake m t).obstacles = g.obstacles ∧
    (g.shake m t).orbs = g.orbs ∧ (g.shake m t).score = g.score ∧
    (g.shake m t).multiplier = g.multiplier ∧ (g.shake m t).elapsed = g.elapsed ∧
    (g.shake m t).difficulty = g.difficulty ∧ (g.shake m t).speed = g.speed ∧
    (g.shake m t).nearMissGrace = g.nearMissGrace :=
  ⟨rfl, rfl, rfl, rfl, rfl, rfl, rfl, rfl, rfl⟩

theorem gameOver_frame (g : Game) :
    g.gameOver.player = g.player ∧ g.gameOver.obstacles = g.obstacles ∧
    g.gameOver.orbs = g.orbs ∧ g.gameOver.spawnCooldown = g.spawnCooldown ∧
    g.gameOver.orbCooldown = g.orbCooldown := by
  simp only [Game.gameOver, Game.stop]
  split_ifs <;> exact ⟨rfl, rfl, rfl, rfl, rfl⟩

theorem orbPass_orbs (g : Game) :
    g.orbPass.orbs = g.orbs.filter (fun c => !rectsOverlap g.player.getBounds c.getBounds) := by
  have h := (orbLoop_spec g.player.getBounds g.orbs.length g le_rfl).1
  rw [List.take_length, List.drop_length, List.append_nil] at h
  exact h

/-- The obstacle collection after the movement phase: the old obstacles, followed by the
one spawned in this step if the spawn timer ran out, all advanced by `dt`. -/
theorem advance_obstacles (g : Game) (dt : ℚ) (input : Input) (rnd : Nat → ℚ) :
    (g.advance dt input rnd).obstacles =
      (if g.spawnCooldown - dt ≤ 0 then
        g.obstacles ++ [Obstacle.new g.width (150 + 320 * min 1 ((g.elapsed + dt) / 90)) rnd 0]
       else g.obstacles).map (fun o => o.update dt) := by
  simp only [Game.advance, Game.moveAll, Game.tickOrb, Game.tickSpawn, Game.ramp,
    Game.spawnObstacle, Game.spawnOrb, Game.width]
  split_ifs <;> rfl

/-- The orb collection after the movement phase. -/
theorem advance_orbs (g : Game) (dt : ℚ) (input : Input) (rnd : Nat → ℚ) :
    (g.advance dt input rnd).orbs =
      (if g.orbCooldown - dt ≤ 0 ∧
          chance (rnd (if g.spawnCooldown - dt ≤ 0 then 5 else 0)) 0.8 = true then
        g.orbs ++ [Orb.new g.width (150 + 320 * min 1 ((g.elapsed + dt) / 90)) rnd
          ((if g.spawnCooldown - dt ≤ 0 then 5 else 0) + 1)]
       else g.orbs).map (fun c => c.update dt) := by
  simp only [Game.advance, Game.moveAll, Game.tickOrb, Game.tickSpawn, Game.ramp,
    Game.spawnObstacle, Game.spawnOrb, Game.width]
  split_ifs <;> simp_all

theorem advance_cooldowns_pos (g : Game) (dt : ℚ) (input : Input) (rnd : Nat → ℚ) :
    0 < (g.advance dt input rnd).spawnCooldown ∧ 0 < (g.advance dt input rnd).orbCooldown := by
  have h1 : ∀ v : ℚ, (0 : ℚ) < clamp v 0.18 0.8 := fun v =>
    lt_of_lt_of_le (by norm_num) (clamp_ge v 0.18 0.8)
  have h2 : ∀ v : ℚ, (0 : ℚ) < clamp v 0.9 3.0 := fun v =>
    lt_of_lt_of_le (by norm_num) (clamp_ge v 0.9 3.0)
  constructor
  · by_cases hs : g.spawnCooldown - dt ≤ 0
    · simp only [Game.advance, Game.moveAll, Game.tickOrb, Game.tickSpawn, Game.ramp,
        Game.spawnObstacle, Game.spawnOrb, hs, if_true]
      split_ifs <;> exact h1 _
    · simp only [Game.advance, Game.moveAll, Game.tickOrb, Game.tickSpawn, Game.ramp,
        Game.spawnObstacle, Game.spawnOrb, hs, if_false]
      split_ifs <;> exact lt_of_not_le hs
  · by_cases ho : g.orbCooldown - dt ≤ 0
    · simp only [Game.advance, Game.moveAll, Game.tickOrb, Game.tickSpawn, Game.ramp,
        Game.spawnObstacle, Game.spawnOrb]
      split_ifs <;> exact h2 _
    · simp only [Game.advance, Game.moveAll, Game.tickOrb, Game.tickSpawn, Game.ramp,
        Game.spawnObstacle, Game.spawnOrb]
      split_ifs <;> exact lt_of_not_le ho

theorem player_update_x (p : Player) (gw dt : ℚ) (input : Input) :
    (p.update gw dt input).width = p.width ∧ (p.update gw dt input).height = p.height ∧
    (p.update gw dt input).y = p.y ∧
    ∃ v, (p.update gw dt input).x = clamp v (p.width * 0.6) (gw - p.width * 0.6) := by
  unfold Player.update
  by_cases h : input.touchActive = true
  · rw [if_pos h]; exact ⟨rfl, rfl, rfl, _, rfl⟩
  · rw [if_neg h]; exact ⟨rfl, rfl, rfl, _, rfl⟩

/-- A state left running by `update` is settled. -/
theorem settled_of_update (g : Game) (dt : ℚ) (input : Input) (rnd : Nat → ℚ)
    (hrun : (g.update dt input rnd).running = true) : (g.update dt input rnd).Settled := by
  have hfr := orbLoop_frame (g.advance dt input rnd).player.getBounds
    (g.advance dt input rnd).orbs.length (g.advance dt input rnd)
  have hop := obstaclePass_frame (g.advance dt input rnd).orbPass
  have hcd := advance_cooldowns_pos g dt input rnd
  have hst := settle_frame (g.advance dt input rnd).orbPass.obstaclePass.1 dt
  have hpl : (g.advance dt input rnd).orbPass.obstaclePass.1.player =
      g.player.update g.width dt input := by
    rw [hop.1]; unfold Game.orbPass; rw [hfr.2.1, advance_player]
  unfold Game.update at hrun ⊢
  simp only at hrun ⊢
  split_ifs at hrun ⊢ with hhit
  · rw [gameOver_running] at hrun; exact absurd hrun (by simp)
  · obtain ⟨hw, _, _, v, hv⟩ := player_update_x g.player g.width dt input
    refine ⟨?_, ?_, ?_, ?_, ?_, ?_, ?_⟩
    · rw [hst.2.2.2.1, hop.2.2.2.2.1]; unfold Game.orbPass; rw [hfr.2.2.2.2.2.2.2.2.1]
      exact hcd.1
    · rw [hst.2.2.2.2, hop.2.2.2.2.2.1]; unfold Game.orbPass; rw [hfr.2.2.2.2.2.2.2.2.2]
      exact hcd.2
    · rw [settle_score]; exact le_max_left _ _
    · refine ⟨v, ?_⟩
      rw [hst.1, hpl, hw]; exact hv
    · intro c hc
      rw [hst.2.2.1, List.mem_filter, hop.2.2.1, orbPass_orbs, List.mem_filter] at hc
      rw [hst.1, hop.1]
      unfold Game.orbPass; rw [hfr.2.1]
      simpa using hc.1.2
    · intro o ho
      rw [hst.2.1, List.mem_filter] at ho
      simpa [Game.height, Game.width] using ho.2
    · intro c hc
      rw [hst.2.2.1, List.mem_filter] at hc
      simpa [Game.height, Game.width] using hc.2

/-! ### A step of length zero -/

theorem clamp_idem (v a b : ℚ) : clamp (clamp v a b) a b = clamp v a b := by
  unfold clamp
  rcases le_total a b with h | h
  · rw [min_eq_right (max_le h (min_le_left b v)), max_eq_right (le_max_left _ _)]
  · rw [max_eq_left (le_trans (min_le_left b v) h), max_eq_left (le_trans (min_le_left b _) h)]

theorem obstacle_update_zero (o : Obstacle) :
    (o.update 0).x = o.x ∧ (o.update 0).y = o.y ∧ (o.update 0).w = o.w ∧
    (o.update 0).h = o.h ∧ (o.update 0).speed = o.speed := by
  simp [Obstacle.update]

theorem orb_update_zero (c : Orb) :
    (c.update 0).x = c.x ∧ (c.update 0).y = c.y ∧ (c.update 0).r = c.r ∧
    (c.update 0).speed = c.speed := by
  simp [Orb.update]

theorem player_update_zero (p : Player) (gw : ℚ) (input : Input)
    (ht : input.touchActive = false)
    (hx : ∃ v, p.x = clamp v (p.width * 0.6) (gw - p.width * 0.6)) :
    (p.update gw 0 input).x = p.x ∧ (p.update gw 0 input).getBounds = p.getBounds := by
  obtain ⟨v, hv⟩ := hx
  have hx : (p.update gw 0 input).x = p.x := by
    unfold Player.update
    rw [if_neg (by simp [ht])]
    simp only [mul_zero, add_zero]
    rw [hv, clamp_idem]
  obtain ⟨hw, hh, hy, _⟩ := player_update_x p gw 0 input
  refine ⟨hx, ?_⟩
  unfold Player.getBounds
  rw [hx, hw, hh, hy]

/-- From a settled state and without pointer control, `update(0)` leaves the score and the
player where they are and only re-applies the zero-length movement to every entity. -/
theorem update_zero_of_settled (g : Game) (input : Input) (rnd : Nat → ℚ)
    (hs : g.Settled) (ht : input.touchActive = false) :
    (g.update 0 input rnd).score = g.score ∧
    (g.update 0 input rnd).player.x = g.player.x ∧
    (g.update 0 input rnd).obstacles = g.obstacles.map (fun o => o.update 0) ∧
    (g.update 0 input rnd).orbs = g.orbs.map (fun c => c.update 0) := by
  obtain ⟨hsc, hoc, hscore, hx, hnov, hoff, hoff2⟩ := hs
  obtain ⟨hpx, hpb⟩ := player_update_zero g.player g.width input ht hx
  have hpl := advance_player g 0 input rnd
  have hobs : (g.advance 0 input rnd).obstacles = g.obstacles.map (fun o => o.update 0) := by
    rw [advance_obstacles, if_neg (by rw [sub_zero]; exact not_le.mpr hsc)]
  have horbs : (g.advance 0 input rnd).orbs = g.orbs.map (fun c => c.update 0) := by
    rw [advance_orbs, if_neg (by rw [sub_zero]; exact fun h => absurd h.1 (not_le.mpr hoc))]
  have hfr := orbLoop_frame (g.advance 0 input rnd).player.getBounds
    (g.advance 0 input rnd).orbs.length (g.advance 0 input rnd)
  have hnone : ∀ c ∈ (g.advance 0 input rnd).orbs,
      rectsOverlap (g.advance 0 input rnd).player.getBounds c.getBounds = false := by
    intro c hc
    rw [horbs, List.mem_map] at hc
    obtain ⟨c0, hc0, rfl⟩ := hc
    rw [hpl, hpb]
    have hb : (c0.update 0).getBounds = c0.getBounds := by
      obtain ⟨h1, h2, h3, _⟩ := orb_update_zero c0
      unfold Orb.getBounds; rw [h1, h2, h3]
    rw [hb]; exact hnov c0 hc0
  have hporbs : (g.advance 0 input rnd).orbPass.orbs = g.orbs.map (fun c => c.update 0) := by
    rw [orbPass_orbs, List.filter_eq_self.mpr, horbs]
    intro c hc; simp [hnone c hc]
  have hpscore : (g.advance 0 input rnd).orbPass.score = g.score := by
    rw [orbPass_score, advance_score, List.countP_eq_zero.mpr]
    · simp
    · intro c hc; simp [hnone c hc]
  have hop := obstaclePass_frame (g.advance 0 input rnd).orbPass
  have hpplayer : (g.advance 0 input rnd).orbPass.player = g.player.update g.width 0 input := by
    unfold Game.orbPass; rw [hfr.2.1, hpl]
  have hpobs : (g.advance 0 input rnd).orbPass.obstacles =
      g.obstacles.map (fun o => o.update 0) := by
    unfold Game.orbPass; rw [hfr.2.2.1, hobs]
  unfold Game.update
  simp only
  split_ifs with hhit
  · have hgo := gameOver_frame ((g.advance 0 input rnd).orbPass.obstaclePass.1.shake 8 0.3)
    have hsh := shake_frame (g.advance 0 input rnd).orbPass.obstaclePass.1 8 0.3
    refine ⟨?_, ?_, ?_, ?_⟩
    · rw [gameOver_score, hsh.2.2.2.1, hop.2.2.2.1, hpscore]
    · rw [hgo.1, hsh.1, hop.1, hpplayer, hpx]
    · rw [hgo.2.1, hsh.2.1, hop.2.1, hpobs]
    · rw [hgo.2.2.1, hsh.2.2.1, hop.2.2.1, hporbs]
  · have hst := settle_frame (g.advance 0 input rnd).orbPass.obstaclePass.1 0
    refine ⟨?_, ?_, ?_, ?_⟩
    · rw [settle_score, hop.2.2.2.1, hpscore, mul_zero, zero_mul, add_zero]
      exact max_eq_right hscore
    · rw [hst.1, hop.1, hpplayer, hpx]
    · rw [hst.2.1, hop.2.1, hpobs, List.filter_eq_self]
      intro o ho
      rw [List.mem_map] at ho
      obtain ⟨o0, ho0, rfl⟩ := ho
      obtain ⟨_, h2, _, h4, _⟩ := obstacle_update_zero o0
      have := hoff o0 ho0
      simp only [Obstacle.offscreen, h2, h4, Game.height, Game.width] at this ⊢
      simpa using this
    · rw [hst.2.2.1, hop.2.2.1, hporbs, List.filter_eq_self]
      intro c hc
      rw [List.mem_map] at hc
      obtain ⟨c0, hc0, rfl⟩ := hc
      obtain ⟨_, h2, h3, _⟩ := orb_update_zero c0
      have := hoff2 c0 hc0
      simp only [Orb.offscreen, h2, h3, Game.height, Game.width] at this ⊢
      simpa using this

/-! ### The first step of a session -/

theorem advance_effects (g : Game) (dt : ℚ) (input : Input) (rnd : Nat → ℚ) :
    (g.advance dt input rnd).effects = g.effects := by
  simp only [Game.advance, Game.moveAll, Game.tickOrb, Game.tickSpawn, Game.ramp,
    Game.spawnObstacle, Game.spawnOrb]
  split_ifs <;> rfl

theorem settle_effects (g : Game) (dt : ℚ) :
    (g.settle dt).effects =
      (g.effects.map (fun e => Effect.update e dt)).filter (fun e => !Effect.done e) := by
  simp only [Game.settle]
  split_ifs <;> rfl

theorem orbPass_of_nil (g : Game) (h : g.orbs = []) : g.orbPass = g := by
  unfold Game.orbPass
  rw [h]
  rfl

theorem new_player_y (g : Game) : (Player.new g.width g.height).y = 583 := by
  unfold Player.new
  rw [height_eq]
  norm_num

/-- An obstacle whose centre is above the top of the field neither overlaps nor nearly
misses a player standing at `y = 583`. -/
theorem above_field_clear (p : Player) (ob : Obstacle) (hy : p.y = 583) (hh : p.height = 38)
    (hob : ob.y + ob.h / 2 ≤ 0) (hoh : 0 ≤ ob.h) :
    rectsOverlap p.getBounds ob.getBounds = false ∧
      nearMiss p.getBounds ob.getBounds = false := by
  constructor
  · rw [Bool.eq_false_iff]
    intro hov
    simp only [rectsOverlap, Player.getBounds, Obstacle.getBounds, Bool.and_eq_true,
      decide_eq_true_eq] at hov
    obtain ⟨⟨_, hv⟩, _⟩ := hov
    rw [hy, hh] at hv
    norm_num at hv
    linarith
  · rw [Bool.eq_false_iff]
    intro hnm
    simp only [nearMiss, Player.getBounds, Obstacle.getBounds, Bool.and_eq_true,
      decide_eq_true_eq] at hnm
    obtain ⟨⟨hv, _⟩, _⟩ := hnm
    rw [abs_lt, hy, hh] at hv
    norm_num at hv
    linarith [hv.1]

/-- A freshly constructed obstacle, drawn from `[0, 1)`, lies wholly above the field. -/
theorem new_obstacle_above (gw gspeed : ℚ) (rnd : Nat → ℚ) (n : Nat)
    (hr : ∀ k, 0 ≤ rnd k ∧ rnd k < 1) :
    (Obstacle.new gw gspeed rnd n).y + (Obstacle.new gw gspeed rnd n).h / 2 ≤ 0 ∧
    18 ≤ (Obstacle.new gw gspeed rnd n).h ∧ (Obstacle.new gw gspeed rnd n).y ≤ -18 := by
  have h1 := hr (n + 1)
  have h3 := hr (n + 3)
  simp only [Obstacle.new, rand]
  refine ⟨?_, ?_, ?_⟩ <;> linarith [h1.1, h3.1]

theorem loopDt_reset (g : Game) (now : ℚ) : g.reset.loopDt now = 0 := by
  norm_num [Game.loopDt, Game.reset]

theorem start_eq (g : Game) (now : ℚ) (input : Input) (rnd : Nat → ℚ) :
    g.start now input rnd =
      ({ g.reset with lastTs := some now } : Game).update 0 input rnd := by
  unfold Game.start Game.loop
  simp only [loopDt_reset]
  rfl

/-- The first step of a session: from a state with the fields that `start()` assigns,
`update(0)` spawns one obstacle and changes nothing else that the session observes. -/
theorem first_step (g1 : Game) (input : Input) (rnd : Nat → ℚ)
    (hr : ∀ k, 0 ≤ rnd k ∧ rnd k < 1)
    (hsc : g1.spawnCooldown = 0) (hoc : g1.orbCooldown = 1.5) (hel : g1.elapsed = 0)
    (hobs0 : g1.obstacles = []) (horbs0 : g1.orbs = []) (heff0 : g1.effects = [])
    (hscore : g1.score = 0) (hmul : g1.multiplier = 1) (hrun : g1.running = true)
    (hpy : g1.player.y = 583) (hph : g1.player.height = 38) :
    (g1.update 0 input rnd).score = 0 ∧ (g1.update 0 input rnd).multiplier = 1 ∧
    (g1.update 0 input rnd).running = true ∧ (g1.update 0 input rnd).orbs = [] ∧
    (g1.update 0 input rnd).effects = [] ∧
    (g1.update 0 input rnd).obstacles = [(Obstacle.new g1.width 150 rnd 0).update 0] := by
  have hobs : (g1.advance 0 input rnd).obstacles =
      [(Obstacle.new g1.width 150 rnd 0).update 0] := by
    rw [advance_obstacles, hsc, hel, hobs0]
    norm_num
  have horbs : (g1.advance 0 input rnd).orbs = [] := by
    rw [advance_orbs, hoc, horbs0]
    have : ¬ ((1.5 : ℚ) - 0 ≤ 0) := by norm_num
    rw [if_neg (fun h => this h.1)]
    rfl
  have hpass : (g1.advance 0 input rnd).orbPass = g1.advance 0 input rnd :=
    orbPass_of_nil _ horbs
  obtain ⟨_, hph2, hpy2, _⟩ := player_update_x g1.player g1.width 0 input
  have hnew := new_obstacle_above g1.width 150 rnd 0 hr
  have hclear := above_field_clear (g1.advance 0 input rnd).player
    ((Obstacle.new g1.width 150 rnd 0).update 0)
    (by rw [advance_player, hpy2]; exact hpy)
    (by rw [advance_player, hph2]; exact hph)
    (by simp only [Obstacle.update, mul_zero, add_zero]; exact hnew.1)
    (by simp only [Obstacle.update]; linarith [hnew.2.1])
  have hloop : (g1.advance 0 input rnd).obstaclePass = (g1.advance 0 input rnd, false) := by
    unfold Game.obstaclePass
    rw [hobs, List.reverse_singleton]
    unfold Game.obstacleLoop
    rw [if_neg (by rw [hclear.1]; simp)]
    unfold Game.nearMissStep
    rw [if_neg (by rw [hclear.2]; simp)]
    rfl
  have hupd : g1.update 0 input rnd = (g1.advance 0 input rnd).settle 0 := by
    unfold Game.update
    simp only [hpass, hloop]
    rfl
  rw [hupd]
  have hst := settle_frame (g1.advance 0 input rnd) 0
  refine ⟨?_, ?_, ?_, ?_, ?_, ?_⟩
  · rw [settle_score, advance_score, hscore]
    simp
  · rw [settle_multiplier, advance_multiplier, hmul]
  · rw [settle_running, advance_running, hrun]
  · rw [hst.2.2.1, horbs]
    rfl
  · rw [settle_effects, advance_effects, heff0]
    rfl
  · rw [hst.2.1, hobs]
    have hoff : ((Obstacle.new g1.width 150 rnd 0).update 0).offscreen
        (g1.advance 0 input rnd).height = false := by
      simp only [Obstacle.offscreen, height_eq, Obstacle.update, mul_zero, add_zero,
        decide_eq_false_iff_not, not_lt]
      linarith [hnew.2.1, hnew.2.2]
    rw [List.filter_cons, hoff]
    rfl
/-- The whole of `start()`: the reset, then the first step, which has length zero and
spawns the first obstacle. -/
theorem start_spec (g : Game) (now : ℚ) (input : Input) (rnd : Nat → ℚ)
    (hr : ∀ k, 0 ≤ rnd k ∧ rnd k < 1) :
    (g.start now input rnd).score = 0 ∧ (g.start now input rnd).multiplier = 1 ∧
    (g.start now input rnd).running = true ∧ (g.start now input rnd).orbs = [] ∧
    (g.start now input rnd).effects = [] ∧
    (g.start now input rnd).obstacles = [(Obstacle.new g.width 150 rnd 0).update 0] := by
  rw [start_eq]
  exact first_step _ input rnd hr rfl rfl rfl rfl rfl rfl rfl rfl rfl (new_player_y g) rfl

/-! ### The near-miss reward through a step -/

theorem obstaclePass_fst (g : Game) :
    g.obstaclePass.1 =
      if g.nearMissGrace ≤ 0 ∧
          (Game.examined g.player.getBounds g.obstacles.reverse).any
            (fun ob => nearMiss g.player.getBounds ob.getBounds) = true
      then g.nearMissReward else g :=
  obstacleLoop_fst _ _ _

theorem orbPass_nearMissGrace (g : Game) : g.orbPass.nearMissGrace = g.nearMissGrace :=
  (orbLoop_frame _ _ g).2.2.2.1

theorem orbPass_elapsed (g : Game) : g.orbPass.elapsed = g.elapsed :=
  (orbLoop_frame _ _ g).2.2.2.2.2.1

/-- The state after the obstacle pass of `update(dt)`, in terms of `nearMissFires`. -/
theorem update_pass (g : Game) (dt : ℚ) (input : Input) (rnd : Nat → ℚ) :
    (g.advance dt input rnd).orbPass.obstaclePass.1 =
      if g.nearMissFires dt input rnd = true then (g.advance dt input rnd).orbPass.nearMissReward
      else (g.advance dt input rnd).orbPass := by
  rw [obstaclePass_fst]
  by_cases h : g.nearMissFires dt input rnd = true
  · rw [if_pos h, if_pos]
    simpa [Game.nearMissFires] using h
  · rw [if_neg h, if_neg]
    simpa [Game.nearMissFires] using h

theorem fires_grace (g : Game) (dt : ℚ) (input : Input) (rnd : Nat → ℚ)
    (h : g.nearMissFires dt input rnd = true) : g.nearMissGrace ≤ 0 := by
  simp only [Game.nearMissFires, Bool.and_eq_true, decide_eq_true_eq] at h
  rw [orbPass_nearMissGrace, advance_nearMissGrace] at h
  exact h.1

theorem update_multiplier (g : Game) (dt : ℚ) (input : Input) (rnd : Nat → ℚ) :
    (g.update dt input rnd).multiplier =
      if g.nearMissFires dt input rnd = true then clamp (g.multiplier + 0.1) 1 4.0
      else g.multiplier := by
  have hp := update_pass g dt input rnd
  have hm : (g.advance dt input rnd).orbPass.obstaclePass.1.multiplier =
      if g.nearMissFires dt input rnd = true then clamp (g.multiplier + 0.1) 1 4.0
      else g.multiplier := by
    rw [hp]
    split_ifs
    · rw [nearMissReward_multiplier, orbPass_multiplier, advance_multiplier]
    · rw [orbPass_multiplier, advance_multiplier]
  rw [← hm]
  unfold Game.update
  simp only
  split_ifs with hhit
  · rw [gameOver_multiplier, (shake_frame _ 8 0.3).2.2.2.2.1]
  · rw [settle_multiplier]

theorem update_elapsed (g : Game) (dt : ℚ) (input : Input) (rnd : Nat → ℚ) :
    (g.update dt input rnd).elapsed = g.elapsed + dt := by
  have hp := (obstaclePass_frame (g.advance dt input rnd).orbPass).2.2.2.2.2.2.2.1
  unfold Game.update
  simp only
  split_ifs with hhit
  · rw [gameOver_elapsed, (shake_frame _ 8 0.3).2.2.2.2.2.1, hp, orbPass_elapsed,
      advance_elapsed]
  · rw [settle_elapsed, hp, orbPass_elapsed, advance_elapsed]

/-- The grace timer after a step: a firing step leaves at least `0.25 - dt`, and no step
with `dt ≥ 0` takes more than `dt` off the timer. -/
theorem update_grace (g : Game) (dt : ℚ) (input : Input) (rnd : Nat → ℚ) (hdt : 0 ≤ dt) :
    g.nearMissGrace - dt ≤ (g.update dt input rnd).nearMissGrace ∧
    (g.nearMissFires dt input rnd = true →
      0.25 - dt ≤ (g.update dt input rnd).nearMissGrace) := by
  have hp := update_pass g dt input rnd
  have hg : (g.advance dt input rnd).orbPass.obstaclePass.1.nearMissGrace =
      if g.nearMissFires dt input rnd = true then 0.25 else g.nearMissGrace := by
    rw [hp]
    split_ifs
    · rw [nearMissReward_nearMissGrace]
    · rw [orbPass_nearMissGrace, advance_nearMissGrace]
  have hu : (g.update dt input rnd).nearMissGrace =
        (g.advance dt input rnd).orbPass.obstaclePass.1.nearMissGrace ∨
      (g.update dt input rnd).nearMissGrace =
        (g.advance dt input rnd).orbPass.obstaclePass.1.nearMissGrace - dt := by
    unfold Game.update
    simp only
    split_ifs with hhit
    · left; rw [gameOver_nearMissGrace, (shake_frame _ 8 0.3).2.2.2.2.2.2.2.2]
    · right; rw [settle_nearMissGrace]
  rw [hg] at hu
  by_cases hf : g.nearMissFires dt input rnd = true
  · have h0 := fires_grace g dt input rnd hf
    rw [if_pos hf] at hu
    have h25 : (0 : ℚ) < 0.25 := by norm_num
    rcases hu with hu | hu <;> rw [hu] <;> constructor <;> intros <;> linarith
  · rw [if_neg hf] at hu
    rcases hu with hu | hu <;> rw [hu] <;> constructor <;> intros <;>
      first
        | linarith
        | contradiction

theorem run_append (g : Game) (l1 l2 : List Step) :
    g.run (l1 ++ l2) = (g.run l1).run l2 := by
  induction l1 generalizing g with
  | nil => rfl
  | cons s rest ih => exact ih _

theorem run_elapsed (g : Game) (l : List Step) : (g.run l).elapsed = g.elapsed + dtSum l := by
  induction l generalizing g with
  | nil => simp [Game.run, dtSum]
  | cons s rest ih =>
    rw [Game.run, ih, update_elapsed, dtSum]
    ring

theorem run_grace (g : Game) (l : List Step) (hl : ∀ s ∈ l, 0 ≤ s.dt) :
    g.nearMissGrace - dtSum l ≤ (g.run l).nearMissGrace := by
  induction l generalizing g with
  | nil => simp [Game.run, dtSum]
  | cons s rest ih =>
    have h1 := (update_grace g s.dt s.input s.rnd (hl s (List.mem_cons_self _ _))).1
    have h2 := ih (g.update s.dt s.input s.rnd)
      (fun t ht => hl t (List.mem_cons_of_mem _ ht))
    rw [Game.run, dtSum]
    linarith

/-- Two firing steps: the elapsed time at the start of the second is at least `0.25` more
than at the start of the first. -/
theorem fires_spacing (g : Game) (si : Step) (mid : List Step) (sj : Step)
    (hi : 0 ≤ si.dt) (hmid : ∀ s ∈ mid, 0 ≤ s.dt)
    (hfi : g.nearMissFires si.dt si.input si.rnd = true)
    (hfj : ((g.update si.dt si.input si.rnd).run mid).nearMissFires sj.dt sj.input sj.rnd
      = true) :
    0.25 ≤ si.dt + dtSum mid := by
  have h1 := (update_grace g si.dt si.input si.rnd hi).2 hfi
  have h2 := run_grace (g.update si.dt si.input si.rnd) mid hmid
  have h3 := fires_grace _ _ _ _ hfj
  linarith

/-! ### Where the entities of the next state come from -/

theorem update_obstacles_mem (g : Game) (dt : ℚ) (input : Input) (rnd : Nat → ℚ)
    (o : Obstacle) (ho : o ∈ (g.update dt input rnd).obstacles) :
    o ∈ (g.advance dt input rnd).obstacles := by
  have hfr := (orbLoop_frame (g.advance dt input rnd).player.getBounds
    (g.advance dt input rnd).orbs.length (g.advance dt input rnd)).2.2.1
  have hop := (obstaclePass_frame (g.advance dt input rnd).orbPass).2.1
  have hall : (g.advance dt input rnd).orbPass.obstaclePass.1.obstacles =
      (g.advance dt input rnd).obstacles := by
    rw [hop]; exact hfr
  unfold Game.update at ho
  simp only at ho
  split_ifs at ho with hhit
  · rw [(gameOver_frame _).2.1, (shake_frame _ 8 0.3).2.1, hall] at ho
    exact ho
  · rw [(settle_frame _ dt).2.1, List.mem_filter, hall] at ho
    exact ho.1

theorem update_orbs_mem (g : Game) (dt : ℚ) (input : Input) (rnd : Nat → ℚ)
    (c : Orb) (hc : c ∈ (g.update dt input rnd).orbs) :
    c ∈ (g.advance dt input rnd).orbs := by
  have hop := (obstaclePass_frame (g.advance dt input rnd).orbPass).2.2.1
  have hall : ∀ c, c ∈ (g.advance dt input rnd).orbPass.obstaclePass.1.orbs →
      c ∈ (g.advance dt input rnd).orbs := by
    intro c h
    rw [hop, orbPass_orbs, List.mem_filter] at h
    exact h.1
  unfold Game.update at hc
  simp only at hc
  split_ifs at hc with hhit
  · rw [(gameOver_frame _).2.2.1, (shake_frame _ 8 0.3).2.2.1] at hc
    exact hall c hc
  · rw [(settle_frame _ dt).2.2.1, List.mem_filter] at hc
    exact hall c hc.1

/-- Every obstacle after `update(dt)` is an obstacle of the previous state, or the one
spawned in this step, advanced by `dt`. -/
theorem update_obstacles_origin (g : Game) (dt : ℚ) (input : Input) (rnd : Nat → ℚ)
    (o : Obstacle) (ho : o ∈ (g.update dt input rnd).obstacles) :
    ∃ o0, (o0 ∈ g.obstacles ∨
        o0 = Obstacle.new g.width (150 + 320 * min 1 ((g.elapsed + dt) / 90)) rnd 0) ∧
      o = o0.update dt := by
  have h := update_obstacles_mem g dt input rnd o ho
  rw [advance_obstacles, List.mem_map] at h
  obtain ⟨o0, h0, rfl⟩ := h
  refine ⟨o0, ?_, rfl⟩
  split_ifs at h0
  · rw [List.mem_append, List.mem_singleton] at h0
    exact h0
  · exact Or.inl h0

/-- Every orb after `update(dt)` is an orb of the previous state, or the one spawned in
this step, advanced by `dt`. -/
theorem update_orbs_origin (g : Game) (dt : ℚ) (input : Input) (rnd : Nat → ℚ)
    (c : Orb) (hc : c ∈ (g.update dt input rnd).orbs) :
    ∃ c0, (c0 ∈ g.orbs ∨
        ∃ n, c0 = Orb.new g.width (150 + 320 * min 1 ((g.elapsed + dt) / 90)) rnd n) ∧
      c = c0.update dt := by
  have h := update_orbs_mem g dt input rnd c hc
  rw [advance_orbs, List.mem_map] at h
  obtain ⟨c0, h0, rfl⟩ := h
  refine ⟨c0, ?_, rfl⟩
  by_cases hcond : g.orbCooldown - dt ≤ 0 ∧
      chance (rnd (if g.spawnCooldown - dt ≤ 0 then 5 else 0)) 0.8 = true
  · rw [if_pos hcond, List.mem_append, List.mem_singleton] at h0
    rcases h0 with h0 | h0
    · exact Or.inl h0
    · exact Or.inr ⟨_, h0⟩
  · rw [if_neg hcond] at h0
    exact Or.inl h0

theorem loopDt_le (g : Game) (ts : ℚ) : g.loopDt ts ≤ 0.033 := by
  unfold Game.loopDt
  exact min_le_left _ _

/-- What `loop(ts)` does: nothing but recording the timestamp when the session is not
running, and otherwise `update` with the delta `loopDt`. -/
theorem loop_eq (g : Game) (ts : ℚ) (input : Input) (rnd : Nat → ℚ) :
    g.loop ts input rnd =
      if g.running = true then
        ({ g with lastTs := some ts } : Game).update (g.loopDt ts) input rnd
      else { g with lastTs := some ts } := by
  unfold Game.loop
  by_cases h : g.running = true <;> simp [h]

theorem update_difficulty (g : Game) (dt : ℚ) (input : Input) (rnd : Nat → ℚ) :
    (g.update dt input rnd).difficulty = min 1 ((g.elapsed + dt) / 90) ∧
    (g.update dt input rnd).speed = 150 + 320 * min 1 ((g.elapsed + dt) / 90) := by
  have hfr := orbLoop_frame (g.advance dt input rnd).player.getBounds
    (g.advance dt input rnd).orbs.length (g.advance dt input rnd)
  have hop := obstaclePass_frame (g.advance dt input rnd).orbPass
  have hd : (g.advance dt input rnd).orbPass.obstaclePass.1.difficulty =
      min 1 ((g.elapsed + dt) / 90) := by
    rw [hop.2.2.2.2.2.2.2.2.1]; unfold Game.orbPass
    rw [hfr.2.2.2.2.2.2.1, advance_difficulty]
  have hs : (g.advance dt input rnd).orbPass.obstaclePass.1.speed =
      150 + 320 * min 1 ((g.elapsed + dt) / 90) := by
    rw [hop.2.2.2.2.2.2.2.2.2]; unfold Game.orbPass
    rw [hfr.2.2.2.2.2.2.2.1, advance_speed]
  unfold Game.update
  simp only
  split_ifs with hhit
  · rw [gameOver_difficulty, gameOver_speed, (shake_frame _ 8 0.3).2.2.2.2.2.2.1,
      (shake_frame _ 8 0.3).2.2.2.2.2.2.2.1]
    exact ⟨hd, hs⟩
  · rw [settle_difficulty, settle_speed]
    exact ⟨hd, hs⟩

theorem dtSum_nonneg (l : List Step) (hl : ∀ s ∈ l, 0 ≤ s.dt) : 0 ≤ dtSum l := by
  induction l with
  | nil => simp [dtSum]
  | cons s rest ih =>
    rw [dtSum]
    have h1 := hl s (List.mem_cons_self _ _)
    have h2 := ih (fun t ht => hl t (List.mem_cons_of_mem _ ht))
    linarith

/-- The ramp relation between `elapsed`, `difficulty` and `speed` survives any sequence of
steps. -/
theorem run_ramp (g : Game) (l : List Step)
    (h : g.difficulty = min 1 (g.elapsed / 90) ∧ g.speed = 150 + 320 * g.difficulty) :
    (g.run l).difficulty = min 1 ((g.run l).elapsed / 90) ∧
    (g.run l).speed = 150 + 320 * (g.run l).difficulty := by
  induction l generalizing g with
  | nil => exact h
  | cons s rest ih =>
    rw [Game.run]
    apply ih
    obtain ⟨h1, h2⟩ := update_difficulty g s.dt s.input s.rnd
    rw [h1, h2, update_elapsed]
    exact ⟨rfl, rfl⟩

theorem start_elapsed (g : Game) (now : ℚ) (input : Input) (rnd : Nat → ℚ) :
    (g.start now input rnd).elapsed = 0 ∧
    (g.start now input rnd).difficulty = min 1 ((g.start now input rnd).elapsed / 90) ∧
    (g.start now input rnd).speed = 150 + 320 * (g.start now input rnd).difficulty := by
  rw [start_eq]
  obtain ⟨h1, h2⟩ := update_difficulty ({ g.reset with lastTs := some now } : Game) 0 input rnd
  have he := update_elapsed ({ g.reset with lastTs := some now } : Game) 0 input rnd
  have h0 : ({ g.reset with lastTs := some now } : Game).elapsed = 0 := rfl
  rw [h0] at he h1 h2
  rw [h1, h2, he]
  exact ⟨by norm_num, rfl, rfl⟩

/-- Score and orbs at the end of `update(dt)`, from the state after the pickup pass. -/
theorem update_after_orbPass (g : Game) (dt : ℚ) (input : Input) (rnd : Nat → ℚ) :
    ((g.advance dt input rnd).orbPass.obstaclePass.2 = true →
      (g.update dt input rnd).orbs = (g.advance dt input rnd).orbPass.orbs ∧
      (g.update dt input rnd).score = (g.advance dt input rnd).orbPass.score) ∧
    ((g.advance dt input rnd).orbPass.obstaclePass.2 = false →
      (g.update dt input rnd).orbs =
        (g.advance dt input rnd).orbPass.orbs.filter (fun c => !c.offscreen g.height) ∧
      (g.update dt input rnd).score =
        max 0 ((g.advance dt input rnd).orbPass.score +
          (12 + (g.update dt input rnd).difficulty * 24) * dt *
            (g.update dt input rnd).multiplier)) := by
  have hop := obstaclePass_frame (g.advance dt input rnd).orbPass
  constructor
  · intro hhit
    unfold Game.update
    simp only [hhit, if_true]
    rw [(gameOver_frame _).2.2.1, gameOver_score, (shake_frame _ 8 0.3).2.2.1,
      (shake_frame _ 8 0.3).2.2.2.1, hop.2.2.1, hop.2.2.2.1]
    exact ⟨rfl, rfl⟩
  · intro hhit
    unfold Game.update
    simp only [hhit, Bool.false_eq_true, if_false]
    rw [(settle_frame _ dt).2.2.1, settle_score, settle_difficulty, settle_multiplier,
      hop.2.2.1, hop.2.2.2.1]
    exact ⟨rfl, rfl⟩

/-! ### Pruning, timers and the near-miss band -/

theorem advance_spawnCooldown (g : Game) (dt : ℚ) (input : Input) (rnd : Nat → ℚ) :
    (g.advance dt input rnd).spawnCooldown =
      if g.spawnCooldown - dt ≤ 0 then
        clamp (0.8 - min 1 ((g.elapsed + dt) / 90) * 0.55) 0.18 0.8
      else g.spawnCooldown - dt := by
  simp only [Game.advance, Game.moveAll, Game.tickOrb, Game.tickSpawn, Game.ramp,
    Game.spawnObstacle, Game.spawnOrb]
  split_ifs <;> rfl

theorem advance_orbCooldown (g : Game) (dt : ℚ) (input : Input) (rnd : Nat → ℚ) :
    (g.advance dt input rnd).orbCooldown =
      if g.orbCooldown - dt ≤ 0 then
        clamp (2.8 - min 1 ((g.elapsed + dt) / 90) * 1.5) 0.9 3.0
      else g.orbCooldown - dt := by
  simp only [Game.advance, Game.moveAll, Game.tickOrb, Game.tickSpawn, Game.ramp,
    Game.spawnObstacle, Game.spawnOrb]
  split_ifs <;> rfl

/-- The `hit` flag of a step, in terms of the obstacles after the movement phase. -/
theorem update_hit_iff (g : Game) (dt : ℚ) (input : Input) (rnd : Nat → ℚ) :
    (g.advance dt input rnd).orbPass.obstaclePass.2 = true ↔
      ∃ ob ∈ (g.advance dt input rnd).obstacles,
        rectsOverlap (g.advance dt input rnd).player.getBounds ob.getBounds = true := by
  have hfr := orbLoop_frame (g.advance dt input rnd).player.getBounds
    (g.advance dt input rnd).orbs.length (g.advance dt input rnd)
  unfold Game.obstaclePass
  rw [obstacleLoop_snd, List.any_eq_true]
  unfold Game.orbPass
  rw [hfr.2.1, hfr.2.2.1]
  simp only [List.mem_reverse]

/-- The state in which a step that hits a hazard ends, field by field. -/
theorem update_of_hit (g : Game) (dt : ℚ) (input : Input) (rnd : Nat → ℚ)
    (hhit : (g.advance dt input rnd).orbPass.obstaclePass.2 = true) :
    (g.update dt input rnd).running = false ∧
    (g.update dt input rnd).score = (g.advance dt input rnd).orbPass.score ∧
    (g.update dt input rnd).spawnCooldown = (g.advance dt input rnd).spawnCooldown ∧
    (g.update dt input rnd).orbCooldown = (g.advance dt input rnd).orbCooldown ∧
    (g.update dt input rnd).nearMissGrace =
      (if g.nearMissFires dt input rnd = true then 0.25 else g.nearMissGrace) ∧
    (g.update dt input rnd).obstacles = (g.advance dt input rnd).obstacles := by
  have hfr := orbLoop_frame (g.advance dt input rnd).player.getBounds
    (g.advance dt input rnd).orbs.length (g.advance dt input rnd)
  have hop := obstaclePass_frame (g.advance dt input rnd).orbPass
  have hp := update_pass g dt input rnd
  have hg : (g.advance dt input rnd).orbPass.obstaclePass.1.nearMissGrace =
      if g.nearMissFires dt input rnd = true then 0.25 else g.nearMissGrace := by
    rw [hp]
    split_ifs
    · rw [nearMissReward_nearMissGrace]
    · rw [orbPass_nearMissGrace, advance_nearMissGrace]
  have hu : g.update dt input rnd =
      ((g.advance dt input rnd).orbPass.obstaclePass.1.shake 8 0.3).gameOver := by
    unfold Game.update
    simp only [hhit, if_true]
  have hgo := gameOver_frame ((g.advance dt input rnd).orbPass.obstaclePass.1.shake 8 0.3)
  have hsh := shake_frame (g.advance dt input rnd).orbPass.obstaclePass.1 8 0.3
  rw [hu]
  refine ⟨gameOver_running _, ?_, ?_, ?_, ?_, ?_⟩
  · rw [gameOver_score, hsh.2.2.2.1, hop.2.2.2.1]
  · rw [hgo.2.2.2.1]
    show (g.advance dt input rnd).orbPass.obstaclePass.1.spawnCooldown = _
    rw [hop.2.2.2.2.1]
    unfold Game.orbPass
    rw [hfr.2.2.2.2.2.2.2.2.1]
  · rw [hgo.2.2.2.2]
    show (g.advance dt input rnd).orbPass.obstaclePass.1.orbCooldown = _
    rw [hop.2.2.2.2.2.1]
    unfold Game.orbPass
    rw [hfr.2.2.2.2.2.2.2.2.2]
  · rw [gameOver_nearMissGrace, hsh.2.2.2.2.2.2.2.2, hg]
  · rw [hgo.2.1, hsh.2.1, hop.2.1]
    unfold Game.orbPass
    rw [hfr.2.2.1]

/-- What is left in the collections by a step that hits no hazard is on screen. -/
theorem update_pruned (g : Game) (dt : ℚ) (input : Input) (rnd : Nat → ℚ)
    (hhit : (g.advance dt input rnd).orbPass.obstaclePass.2 = false) :
    (∀ o ∈ (g.update dt input rnd).obstacles,
      o.offscreen (g.update dt input rnd).height = false) ∧
    (∀ c ∈ (g.update dt input rnd).orbs,
      c.offscreen (g.update dt input rnd).height = false) := by
  have hu : g.update dt input rnd =
      (g.advance dt input rnd).orbPass.obstaclePass.1.settle dt := by
    unfold Game.update
    simp only [hhit, Bool.false_eq_true, if_false]
  have hst := settle_frame (g.advance dt input rnd).orbPass.obstaclePass.1 dt
  rw [hu]
  constructor
  · intro o ho
    rw [hst.2.1, List.mem_filter] at ho
    simpa [Game.height, Game.width] using ho.2
  · intro c hc
    rw [hst.2.2.1, List.mem_filter] at hc
    simpa [Game.height, Game.width] using hc.2

/-- Two rectangles whose centres are vertically closer than 22 and whose heights sum to
more than 44 overlap exactly when their centres are horizontally closer than the sum of
their half-widths. -/
theorem gap_of_no_overlap (pb obb : Rect)
    (hv : |(obb.y + obb.h / 2) - (pb.y + pb.h / 2)| < 22) (hh : 44 < pb.h + obb.h)
    (hno : rectsOverlap pb obb = false) :
    pb.w / 2 + obb.w / 2 ≤ |(obb.x + obb.w / 2) - (pb.x + pb.w / 2)| := by
  by_contra hlt
  rw [not_le, abs_lt] at hlt
  rw [abs_lt] at hv
  have : rectsOverlap pb obb = true := by
    simp only [rectsOverlap, Bool.and_eq_true, decide_eq_true_eq]
    refine ⟨⟨⟨?_, ?_⟩, ?_⟩, ?_⟩ <;> linarith [hlt.1, hlt.2, hv.1, hv.2]
  rw [this] at hno
  exact absurd hno (by simp)

/-- For a non-overlapping pair with heights summing to more than 44, the three forms of
the near-miss condition agree. -/
theorem nearMiss_forms (pb obb : Rect) (hh : 44 < pb.h + obb.h)
    (hno : rectsOverlap pb obb = false) :
    nearMissNoLower pb obb = nearMiss pb obb ∧ nearMissBand pb obb = nearMiss pb obb := by
  by_cases hv : |(obb.y + obb.h / 2) - (pb.y + pb.h / 2)| < 22
  · have hgap := gap_of_no_overlap pb obb hv hh hno
    have hlow : |(obb.x + obb.w / 2) - (pb.x + pb.w / 2)| > pb.w / 2 + obb.w / 2 - 14 := by
      linarith
    constructor
    · simp only [nearMissNoLower, nearMiss, hv, hlow, decide_True, Bool.true_and,
        Bool.and_true]
    · simp only [nearMissBand, nearMiss, hv, hlow, hgap, decide_True, Bool.true_and,
        Bool.and_true]
      congr 1
      apply propext
      constructor <;> intro h <;> linarith
  · constructor
    · simp only [nearMissNoLower, nearMiss, hv, decide_False, Bool.false_and]
    · simp only [nearMissBand, nearMiss, hv, decide_False, Bool.false_and]

theorem obstacleLoopNoLower_eq (pb : Rect) (l : List Obstacle) (g : Game)
    (hl : ∀ ob ∈ l, 44 < pb.h + ob.getBounds.h) :
    Game.obstacleLoopNoLower pb l g = Game.obstacleLoop pb l g := by
  induction l generalizing g with
  | nil => rfl
  | cons ob rest ih =>
    unfold Game.obstacleLoopNoLower Game.obstacleLoop
    by_cases hov : rectsOverlap pb ob.getBounds = true
    · simp only [hov, if_true]
    · simp only [hov, if_false, Bool.false_eq_true]
      have hno : rectsOverlap pb ob.getBounds = false := by simpa using hov
      have hf := (nearMiss_forms pb ob.getBounds (hl ob (List.mem_cons_self _ _)) hno).1
      have hstep : g.nearMissStepNoLower pb ob.getBounds = g.nearMissStep pb ob.getBounds := by
        unfold Game.nearMissStepNoLower Game.nearMissStep
        rw [hf]
      rw [hstep]
      exact ih _ (fun o ho => hl o (List.mem_cons_of_mem _ ho))

/-- The heights seen by the obstacle pass: the player's hitbox and the hazards after the
movement phase. -/
theorem advance_heights (g : Game) (dt : ℚ) (input : Input) (rnd : Nat → ℚ)
    (hp : g.player.height = 38) (hob : ∀ ob ∈ g.obstacles, 18 ≤ ob.h ∧ ob.h ≤ 30)
    (hr : ∀ k, 0 ≤ rnd k ∧ rnd k < 1) :
    (g.advance dt input rnd).player.getBounds.h = 34.2 ∧
    (∀ ob ∈ (g.advance dt input rnd).obstacles, 18 ≤ ob.h ∧ ob.h ≤ 30) := by
  constructor
  · rw [advance_player]
    obtain ⟨_, hh, _, _⟩ := player_update_x g.player g.width dt input
    simp only [Player.getBounds, hh, hp]
    norm_num
  · intro ob hmem
    rw [advance_obstacles, List.mem_map] at hmem
    obtain ⟨o0, h0, rfl⟩ := hmem
    have hsame : (o0.update dt).h = o0.h := rfl
    rw [hsame]
    by_cases hs : g.spawnCooldown - dt ≤ 0
    · rw [if_pos hs, List.mem_append, List.mem_singleton] at h0
      rcases h0 with h0 | h0
      · exact hob o0 h0
      · rw [h0]
        have h1 := hr (0 + 1)
        simp only [Obstacle.new, rand]
        constructor <;> linarith [h1.1, h1.2]
    · rw [if_neg hs] at h0
      exact hob o0 h0

theorem updateNoLower_eq (g : Game) (dt : ℚ) (input : Input) (rnd : Nat → ℚ)
    (hp : g.player.height = 38) (hob : ∀ ob ∈ g.obstacles, 18 ≤ ob.h ∧ ob.h ≤ 30)
    (hr : ∀ k, 0 ≤ rnd k ∧ rnd k < 1) :
    g.updateNoLower dt input rnd = g.update dt input rnd := by
  obtain ⟨hph, hoh⟩ := advance_heights g dt input rnd hp hob hr
  have hfr := orbLoop_frame (g.advance dt input rnd).player.getBounds
    (g.advance dt input rnd).orbs.length (g.advance dt input rnd)
  have hpass : (g.advance dt input rnd).orbPass.obstaclePassNoLower =
      (g.advance dt input rnd).orbPass.obstaclePass := by
    unfold Game.obstaclePassNoLower Game.obstaclePass
    apply obstacleLoopNoLower_eq
    intro ob hmem
    rw [List.mem_reverse] at hmem
    unfold Game.orbPass at hmem ⊢
    rw [hfr.2.2.1] at hmem
    rw [hfr.2.1, hph]
    have := (hoh ob hmem).1
    simp only [Obstacle.getBounds]
    norm_num
    linarith
  unfold Game.updateNoLower Game.update
  rw [hpass]

/-! ## The claims -/

/-- C1. `1 ≤ multiplier ≤ 4 ∧ score ≥ 0` is an invariant of the session: `start()`
establishes it from any state, and `update(dt)` preserves it for every state satisfying it
and every `dt`, negative ones included, whether the step ends normally or by the early
return on a hazard collision. -/
theorem C1_inv_session :
    (∀ (g : Game) (now : ℚ) (input : Input) (rnd : Nat → ℚ),
        (g.start now input rnd).Inv) ∧
    (∀ (g : Game) (dt : ℚ) (input : Input) (rnd : Nat → ℚ),
        g.Inv → (g.update dt input rnd).Inv) :=
  ⟨fun g _ _ _ => inv_loop _ _ _ _ (inv_reset g),
   fun g dt input rnd h => inv_update g dt input rnd h⟩

/-- C2. If, after the actor and the hazards have been advanced by `dt`, some hazard's
bounding box overlaps the actor's, then `update(dt)` ends with `running = false`, whatever
else is in the collections and in whatever order. -/
theorem C2_overlap_terminates (g : Game) (dt : ℚ) (input : Input) (rnd : Nat → ℚ)
    (h : ∃ ob ∈ (g.advance dt input rnd).obstacles,
      rectsOverlap (g.advance dt input rnd).player.getBounds ob.getBounds = true) :
    (g.update dt input rnd).running = false := by
  obtain ⟨ob, hmem, hov⟩ := h
  have hfr := orbLoop_frame (g.advance dt input rnd).player.getBounds
    (g.advance dt input rnd).orbs.length (g.advance dt input rnd)
  have hhit : (g.advance dt input rnd).orbPass.obstaclePass.2 = true := by
    unfold Game.obstaclePass
    rw [obstacleLoop_snd, List.any_eq_true]
    refine ⟨ob, ?_, ?_⟩
    · rw [List.mem_reverse]
      unfold Game.orbPass
      rw [hfr.2.2.1]; exact hmem
    · unfold Game.orbPass
      rw [hfr.2.1]; exact hov
  unfold Game.update
  simp only [hhit, if_true]
  exact gameOver_running _

theorem C1_inv_session_witness :
    fresh.Inv ∧ (fresh.update (-1) idle (rndConst (1 / 2))).Inv :=
  ⟨by unfold Game.Inv; decide!,
   C1_inv_session.2 fresh (-1) idle (rndConst (1 / 2)) (by unfold Game.Inv; decide!)⟩

theorem C2_overlap_terminates_witness :
    (∃ ob ∈ (crashState.advance 0 idle (rndConst (1 / 2))).obstacles,
      rectsOverlap (crashState.advance 0 idle (rndConst (1 / 2))).player.getBounds
        ob.getBounds = true) ∧
    (crashState.update 0 idle (rndConst (1 / 2))).running = false :=
  ⟨by decide!, C2_overlap_terminates crashState 0 idle (rndConst (1 / 2)) (by decide!)⟩

/-- C3, as stated, fails. The first `update` of every session is the `update(0)` that
`start()` issues on the freshly reset, running state, where `spawnCooldown = 0`: it spawns
a hazard. And from the running state that `start()` returns, `update(0)` with the pointer
held moves the actor to the pointer position. -/
theorem C3_counterexample :
    (fresh.running = true ∧ fresh.spawnCooldown = 0 ∧
      (fresh.update 0 idle (rndConst (1 / 2))).obstacles.length =
        fresh.obstacles.length + 1) ∧
    (started.running = true ∧
      (started.update 0 (touchAt 1) (rndConst (1 / 2))).player.x ≠ started.player.x) := by
  decide!

/-- C3, amended. From every running state left by a completed `update` (the state that
`start()` returns is one), and with pointer control inactive, `update(0)` changes neither
the score, nor the actor's `x`, nor the position of any hazard or pickup, and creates no
hazard or pickup: both collections keep their length. -/
theorem C3_zero_step (g : Game) (dt : ℚ) (input0 : Input) (rnd0 : Nat → ℚ)
    (input : Input) (rnd : Nat → ℚ)
    (hrun : (g.update dt input0 rnd0).running = true)
    (ht : input.touchActive = false) :
    ((g.update dt input0 rnd0).update 0 input rnd).score = (g.update dt input0 rnd0).score ∧
    ((g.update dt input0 rnd0).update 0 input rnd).player.x =
      (g.update dt input0 rnd0).player.x ∧
    ((g.update dt input0 rnd0).update 0 input rnd).obstacles.map (fun o => (o.x, o.y)) =
      (g.update dt input0 rnd0).obstacles.map (fun o => (o.x, o.y)) ∧
    ((g.update dt input0 rnd0).update 0 input rnd).orbs.map (fun c => (c.x, c.y)) =
      (g.update dt input0 rnd0).orbs.map (fun c => (c.x, c.y)) ∧
    ((g.update dt input0 rnd0).update 0 input rnd).obstacles.length =
      (g.update dt input0 rnd0).obstacles.length ∧
    ((g.update dt input0 rnd0).update 0 input rnd).orbs.length =
      (g.update dt input0 rnd0).orbs.length := by
  obtain ⟨h1, h2, h3, h4⟩ :=
    update_zero_of_settled _ input rnd (settled_of_update g dt input0 rnd0 hrun) ht
  refine ⟨h1, h2, ?_, ?_, ?_, ?_⟩
  · rw [h3, List.map_map]
    apply List.map_congr_left
    intro o _
    simp [Obstacle.update]
  · rw [h4, List.map_map]
    apply List.map_congr_left
    intro c _
    simp [Orb.update]
  · rw [h3, List.length_map]
  · rw [h4, List.length_map]

theorem C3_zero_step_witness :
    (fresh.update 0 idle (rndConst (1 / 2))).running = true ∧
    idle.touchActive = false ∧
    ((fresh.update 0 idle (rndConst (1 / 2))).update 0 idle (rndConst (1 / 2))).obstacles.length =
      (fresh.update 0 idle (rndConst (1 / 2))).obstacles.length :=
  ⟨by decide!, rfl,
   (C3_zero_step fresh 0 idle (rndConst (1 / 2)) idle (rndConst (1 / 2))
      (by decide!) rfl).2.2.2.2.1⟩

/-- C6, as stated, fails: `start()` ends by running the first step, whose spawn timer is
zero, so when `start()` returns from a terminated session the hazard collection already
holds one hazard. -/
theorem C6_counterexample :
    crashed.running = false ∧
    ((crashed.start 0 idle (rndConst (1 / 2))).obstacles = []) = False := by
  refine ⟨by decide!, ?_⟩
  have h : (crashed.start 0 idle (rndConst (1 / 2))).obstacles.length = 1 := by decide!
  simp only [eq_iff_iff, iff_false]
  intro h0
  rw [h0] at h
  simp at h

/-- C6, amended. From every world state, terminated ones included, and for random draws
in `[0, 1)`, after `start()` returns the world has `score = 0`, `multiplier = 1`,
`running = true`, the pickup and effect collections are empty, and the hazard collection
holds exactly one hazard: the one spawned by the first step that `start()` itself runs,
still wholly above the field. -/
theorem C6_start_resets (g : Game) (now : ℚ) (input : Input) (rnd : Nat → ℚ)
    (hr : ∀ k, 0 ≤ rnd k ∧ rnd k < 1) :
    (g.start now input rnd).score = 0 ∧ (g.start now input rnd).multiplier = 1 ∧
    (g.start now input rnd).running = true ∧ (g.start now input rnd).orbs = [] ∧
    (g.start now input rnd).effects = [] ∧
    (g.start now input rnd).obstacles = [(Obstacle.new g.width 150 rnd 0).update 0] ∧
    (∀ ob ∈ (g.start now input rnd).obstacles, ob.y + ob.h / 2 ≤ 0) := by
  obtain ⟨h1, h2, h3, h4, h5, h6⟩ := start_spec g now input rnd hr
  refine ⟨h1, h2, h3, h4, h5, h6, ?_⟩
  intro ob hob
  rw [h6, List.mem_singleton] at hob
  subst hob
  have hnew := new_obstacle_above g.width 150 rnd 0 hr
  simp only [Obstacle.update, mul_zero, add_zero]
  exact hnew.1

theorem C6_start_resets_witness :
    (∀ k, 0 ≤ rndConst (1 / 2) k ∧ rndConst (1 / 2) k < 1) ∧
    (crashed.start 0 idle (rndConst (1 / 2))).score = 0 ∧
    (crashed.start 0 idle (rndConst (1 / 2))).running = true :=
  ⟨fun _ => by unfold rndConst; norm_num,
   (C6_start_resets crashed 0 idle (rndConst (1 / 2))
      (fun _ => by unfold rndConst; norm_num)).1,
   (C6_start_resets crashed 0 idle (rndConst (1 / 2))
      (fun _ => by unfold rndConst; norm_num)).2.2.1⟩

/-- C4, as stated, fails. In a session started with `start()` and stepped with deltas in
`[0, 0.033]`, the reward fires in the step that brings `elapsed` to `4.554` (a step of
33 ms) and fires again in the step that leaves `elapsed` at `4.771` (a step of 0 ms):
the two firing steps are `0.217` apart. The grace timer set by the first firing is already
reduced by that step's own `dt` before the step ends. -/
theorem C4_counterexample :
    (∀ s ∈ demoPre ++ near 0.033 :: demoMid ++ [near 0], 0 ≤ s.dt ∧ s.dt ≤ 0.033) ∧
    (demoStart.run demoPre).nearMissFires
      (near 0.033).dt (near 0.033).input (near 0.033).rnd = true ∧
    (demoStart.run (demoPre ++ near 0.033 :: demoMid)).nearMissFires
      (near 0).dt (near 0).input (near 0).rnd = true ∧
    (demoStart.run (demoPre ++ near 0.033 :: demoMid ++ [near 0])).elapsed -
      (demoStart.run (demoPre ++ [near 0.033])).elapsed < 0.25 := by
  refine ⟨by decide!, by decide!, by decide!, ?_⟩
  rw [run_elapsed, run_elapsed]
  have h1 : dtSum (demoPre ++ near 0.033 :: demoMid ++ [near 0]) = 4.771 := by decide!
  have h2 : dtSum (demoPre ++ [near 0.033]) = 4.554 := by decide!
  rw [h1, h2]
  norm_num

/-- C4, amended. For every state `g` (in particular every state reached from `start()`),
if the near-miss reward fires in a step `si` from `g` and fires again in a later step `sj`,
all deltas in between being non-negative, then `elapsed` at the start of the second firing
step is at least `0.25` more than at the start of the first; measured after the two steps,
the difference is at least `0.25 - si.dt + sj.dt`, hence at least `0.217` for deltas in
`[0, 0.033]`. -/
theorem C4_spacing (g : Game) (si : Step) (mid : List Step) (sj : Step)
    (hi : 0 ≤ si.dt) (hi2 : si.dt ≤ 0.033) (hj : 0 ≤ sj.dt)
    (hmid : ∀ s ∈ mid, 0 ≤ s.dt)
    (hfi : g.nearMissFires si.dt si.input si.rnd = true)
    (hfj : ((g.update si.dt si.input si.rnd).run mid).nearMissFires sj.dt sj.input sj.rnd
      = true) :
    0.25 ≤ ((g.update si.dt si.input si.rnd).run mid).elapsed - g.elapsed ∧
    (((g.update si.dt si.input si.rnd).run mid).update sj.dt sj.input sj.rnd).elapsed -
        (g.update si.dt si.input si.rnd).elapsed = 
      ((g.update si.dt si.input si.rnd).run mid).elapsed - g.elapsed - si.dt + sj.dt ∧
    0.217 ≤ (((g.update si.dt si.input si.rnd).run mid).update sj.dt sj.input sj.rnd).elapsed -
        (g.update si.dt si.input si.rnd).elapsed := by
  have h := fires_spacing g si mid sj hi hmid hfi hfj
  rw [update_elapsed, run_elapsed, update_elapsed]
  refine ⟨by linarith, by ring, ?_⟩
  norm_num at h hi2 ⊢
  linarith

theorem C4_spacing_witness :
    nearState.nearMissFires (coast 0.033).dt (coast 0.033).input (coast 0.033).rnd = true ∧
    ((nearState.update (coast 0.033).dt (coast 0.033).input (coast 0.033).rnd).run
      (List.replicate 7 (coast 0.033))).nearMissFires
        (coast 0.01).dt (coast 0.01).input (coast 0.01).rnd = true ∧
    0.25 ≤ ((nearState.update (coast 0.033).dt (coast 0.033).input (coast 0.033).rnd).run
      (List.replicate 7 (coast 0.033))).elapsed - nearState.elapsed :=
  ⟨by decide!, by decide!,
   (C4_spacing nearState (coast 0.033) (List.replicate 7 (coast 0.033)) (coast 0.01)
      (by decide!) (by decide!) (by decide!) (by decide!) (by decide!) (by decide!)).1⟩

/-- C5. One `update(dt)` applies the near-miss reward at most once, however many hazards
are in the band: from a state with `multiplier ≥ 1` the multiplier after the step is
either unchanged or `min(4, multiplier + 0.1)`, never more than `multiplier + 0.1`, and it
is `min(4, multiplier + 0.1)` exactly when the reward fires. Inside the pass, the iteration
that fires hands the remaining hazards a state with `nearMissGrace = 0.25`, and whatever
those hazards are, the pass ends in the state rewarded once. -/
theorem C5_single_reward (g : Game) (dt : ℚ) (input : Input) (rnd : Nat → ℚ)
    (hm : 1 ≤ g.multiplier) :
    ((g.update dt input rnd).multiplier = g.multiplier ∨
      (g.update dt input rnd).multiplier = min 4 (g.multiplier + 0.1)) ∧
    (g.update dt input rnd).multiplier ≤ g.multiplier + 0.1 ∧
    (g.nearMissFires dt input rnd = true →
      (g.update dt input rnd).multiplier = min 4 (g.multiplier + 0.1)) ∧
    (g.nearMissFires dt input rnd = false →
      (g.update dt input rnd).multiplier = g.multiplier) ∧
    (∀ (pb : Rect) (ob : Obstacle) (rest : List Obstacle) (gs : Game),
      rectsOverlap pb ob.getBounds = false → nearMiss pb ob.getBounds = true →
      gs.nearMissGrace ≤ 0 →
        (gs.nearMissStep pb ob.getBounds).nearMissGrace = 0.25 ∧
        (Game.obstacleLoop pb (ob :: rest) gs).1 = gs.nearMissReward) := by
  have hc : clamp (g.multiplier + 0.1) 1 4.0 = min 4 (g.multiplier + 0.1) := by
    unfold clamp
    have h4 : (4.0 : ℚ) = 4 := by norm_num
    rw [h4]
    apply max_eq_right
    apply le_min
    · norm_num
    · linarith [show (0 : ℚ) ≤ 0.1 by norm_num]
  have hu := update_multiplier g dt input rnd
  rw [hc] at hu
  have h01 : (0 : ℚ) ≤ 0.1 := by norm_num
  refine ⟨?_, ?_, ?_, ?_, ?_⟩
  · by_cases hf : g.nearMissFires dt input rnd = true
    · right; rw [hu, if_pos hf]
    · left; rw [hu, if_neg hf]
  · by_cases hf : g.nearMissFires dt input rnd = true
    · rw [hu, if_pos hf]; exact min_le_right _ _
    · rw [hu, if_neg hf]; linarith
  · intro hf
    rw [hu, if_pos hf]
  · intro hf
    rw [hu, if_neg (by simp [hf])]
  · intro pb ob rest gs hov hnm hgr
    constructor
    · unfold Game.nearMissStep
      rw [if_pos hnm, if_pos hgr]
      rfl
    · rw [obstacleLoop_fst, if_pos]
      refine ⟨hgr, ?_⟩
      simp [Game.examined, List.takeWhile_cons, hov, hnm]

theorem C5_single_reward_witness :
    1 ≤ nearState.multiplier ∧
    (nearState.update 0.033 idle (rndConst (1 / 2))).multiplier ≤
      nearState.multiplier + 0.1 :=
  ⟨by decide!, (C5_single_reward nearState 0.033 idle (rndConst (1 / 2)) (by decide!)).2.1⟩

/-- C7. Whatever the previous and the current timestamp handed to `loop`, the delta that
`loop` passes to `update` is at most `0.033`; so every hazard and every pickup present
after the call is an entity of the previous state (or the one spawned in this step) with
the same frozen speed, and, its speed being non-negative, it has moved down by at most
its speed times `0.033`. -/
theorem C7_delta_clamp (g : Game) (ts : ℚ) (input : Input) (rnd : Nat → ℚ) :
    g.loopDt ts ≤ 0.033 ∧
    (g.loop ts input rnd =
      if g.running = true then
        ({ g with lastTs := some ts } : Game).update (g.loopDt ts) input rnd
      else { g with lastTs := some ts }) ∧
    (∀ o ∈ (g.loop ts input rnd).obstacles, ∃ o0,
      (o0 ∈ g.obstacles ∨
        o0 = Obstacle.new g.width (150 + 320 * min 1 ((g.elapsed + g.loopDt ts) / 90)) rnd 0) ∧
      o.speed = o0.speed ∧ (0 ≤ o0.speed → o.y - o0.y ≤ o0.speed * 0.033)) ∧
    (∀ c ∈ (g.loop ts input rnd).orbs, ∃ c0,
      (c0 ∈ g.orbs ∨
        ∃ n, c0 = Orb.new g.width (150 + 320 * min 1 ((g.elapsed + g.loopDt ts) / 90)) rnd n) ∧
      c.speed = c0.speed ∧ (0 ≤ c0.speed → c.y - c0.y ≤ c0.speed * 0.033)) := by
  have hdt := loopDt_le g ts
  have h33 : (0 : ℚ) ≤ 0.033 := by norm_num
  refine ⟨hdt, loop_eq g ts input rnd, ?_, ?_⟩
  · intro o ho
    rw [loop_eq] at ho
    by_cases hrun : g.running = true
    · rw [if_pos hrun] at ho
      obtain ⟨o0, h0, rfl⟩ := update_obstacles_origin _ _ input rnd o ho
      refine ⟨o0, h0, rfl, ?_⟩
      intro hs
      simp only [Obstacle.update, add_sub_cancel_left]
      exact mul_le_mul_of_nonneg_left hdt hs
    · rw [if_neg hrun] at ho
      refine ⟨o, Or.inl ho, rfl, ?_⟩
      intro hs
      rw [sub_self]
      exact mul_nonneg hs h33
  · intro c hc
    rw [loop_eq] at hc
    by_cases hrun : g.running = true
    · rw [if_pos hrun] at hc
      obtain ⟨c0, h0, rfl⟩ := update_orbs_origin _ _ input rnd c hc
      refine ⟨c0, h0, rfl, ?_⟩
      intro hs
      simp only [Orb.update, add_sub_cancel_left]
      exact mul_le_mul_of_nonneg_left hdt hs
    · rw [if_neg hrun] at hc
      refine ⟨c, Or.inl hc, rfl, ?_⟩
      intro hs
      rw [sub_self]
      exact mul_nonneg hs h33

theorem C7_delta_clamp_witness :
    lateStart.loopDt 6000 ≤ 0.033 ∧
    (lateStart.obstacles.map (fun o => (o.y, o.speed)) = [(-54, 315 / 2)] ∧
     (lateStart.loop 6000 idle (rndConst (1 / 2))).obstacles.map (fun o => (o.y, o.speed)) =
       [(-54 + 315 / 2 * 0.033, 315 / 2)]) :=
  ⟨(C7_delta_clamp lateStart 6000 idle (rndConst (1 / 2))).1, by decide!⟩

/-- C8, as stated, fails. `loop` has no lower clamp: in a running session whose previous
timestamp is 1000, the timestamp 0 makes `loop` pass the delta `-1` to `update`, `elapsed`
goes from `0` down to `-1` and the hazard moves up from `y = -54` to `y = -211.5`. -/
theorem C8_counterexample :
    lateStart.running = true ∧ lateStart.lastTs = some 1000 ∧
    lateStart.loopDt 0 = -1 ∧
    lateStart.elapsed = 0 ∧ (lateStart.loop 0 idle (rndConst (1 / 2))).elapsed = -1 ∧
    lateStart.obstacles.map (fun o => o.y) = [-54] ∧
    (lateStart.loop 0 idle (rndConst (1 / 2))).obstacles.map (fun o => o.y) = [-423 / 2] := by
  decide!

/-- C8, amended. The delta that `loop` passes to `update` is `0` when no previous
timestamp is recorded (or it is `0`), and `min(0.033, (ts - last) / 1000)` otherwise; it is
non-negative exactly when the current timestamp is not smaller than the previous one.
Whenever it is non-negative, `elapsed` does not decrease and no hazard or pickup of
non-negative speed moves upward. -/
theorem C8_delta_sign (g : Game) (ts : ℚ) (input : Input) (rnd : Nat → ℚ) :
    (g.lastTs = none ∨ g.lastTs = some 0 → g.loopDt ts = 0) ∧
    (∀ last, g.lastTs = some last → last ≠ 0 →
      g.loopDt ts = min 0.033 ((ts - last) / 1000) ∧ (0 ≤ g.loopDt ts ↔ last ≤ ts)) ∧
    (0 ≤ g.loopDt ts →
      g.elapsed ≤ (g.loop ts input rnd).elapsed ∧
      (∀ o ∈ (g.loop ts input rnd).obstacles, ∃ o0,
        (o0 ∈ g.obstacles ∨
          o0 = Obstacle.new g.width (150 + 320 * min 1 ((g.elapsed + g.loopDt ts) / 90))
            rnd 0) ∧
        (0 ≤ o0.speed → o0.y ≤ o.y)) ∧
      (∀ c ∈ (g.loop ts input rnd).orbs, ∃ c0,
        (c0 ∈ g.orbs ∨
          ∃ n, c0 = Orb.new g.width (150 + 320 * min 1 ((g.elapsed + g.loopDt ts) / 90))
            rnd n) ∧
        (0 ≤ c0.speed → c0.y ≤ c.y))) := by
  have h33 : (0 : ℚ) ≤ 0.033 := by norm_num
  refine ⟨?_, ?_, ?_⟩
  · intro h
    rcases h with h | h <;> simp only [Game.loopDt, h] <;> norm_num
  · intro last hl hne
    have hdt : g.loopDt ts = min 0.033 ((ts - last) / 1000) := by
      simp only [Game.loopDt, hl, if_neg hne]
    refine ⟨hdt, ?_⟩
    rw [hdt, le_min_iff]
    constructor
    · intro h
      have := h.2
      rw [le_div_iff₀ (by norm_num : (0 : ℚ) < 1000)] at this
      linarith
    · intro h
      refine ⟨h33, ?_⟩
      apply div_nonneg _ (by norm_num)
      linarith
  · intro hdt
    refine ⟨?_, ?_, ?_⟩
    · rw [loop_eq]
      by_cases hrun : g.running = true
      · rw [if_pos hrun, update_elapsed]
        show g.elapsed ≤ g.elapsed + g.loopDt ts
        linarith
      · rw [if_neg hrun]
    · intro o ho
      rw [loop_eq] at ho
      by_cases hrun : g.running = true
      · rw [if_pos hrun] at ho
        obtain ⟨o0, h0, rfl⟩ := update_obstacles_origin _ _ input rnd o ho
        refine ⟨o0, h0, ?_⟩
        intro hs
        simp only [Obstacle.update]
        have := mul_nonneg hs hdt
        linarith
      · rw [if_neg hrun] at ho
        exact ⟨o, Or.inl ho, fun _ => le_rfl⟩
    · intro c hc
      rw [loop_eq] at hc
      by_cases hrun : g.running = true
      · rw [if_pos hrun] at hc
        obtain ⟨c0, h0, rfl⟩ := update_orbs_origin _ _ input rnd c hc
        refine ⟨c0, h0, ?_⟩
        intro hs
        simp only [Orb.update]
        have := mul_nonneg hs hdt
        linarith
      · rw [if_neg hrun] at hc
        exact ⟨c, Or.inl hc, fun _ => le_rfl⟩

theorem C8_delta_sign_witness :
    lateStart.lastTs = some 1000 ∧ (1000 : ℚ) ≠ 0 ∧ (1000 : ℚ) ≤ 1010 ∧
    0 ≤ lateStart.loopDt 1010 ∧
    lateStart.elapsed ≤ (lateStart.loop 1010 idle (rndConst (1 / 2))).elapsed :=
  ⟨by decide!, by norm_num, by norm_num,
   ((C8_delta_sign lateStart 1010 idle (rndConst (1 / 2))).2.1 1000 (by decide!)
      (by norm_num)).2.mpr (by norm_num),
   ((C8_delta_sign lateStart 1010 idle (rndConst (1 / 2))).2.2
      (((C8_delta_sign lateStart 1010 idle (rndConst (1 / 2))).2.1 1000 (by decide!)
        (by norm_num)).2.mpr (by norm_num))).1⟩

/-- C9. After every `update(dt)`, `difficulty = min(1, elapsed / 90)` and
`speed = 150 + 320 * difficulty` for the updated `elapsed`, with `difficulty = 1` and
`speed = 470` whenever `elapsed ≥ 90`. Consequently, along every sequence of steps with
`dt ≥ 0` in a session begun by `start()`, `difficulty` lies in `[0, 1]`, never decreases,
and is exactly `1` (speed exactly `470`) whenever `elapsed ≥ 90`. -/
theorem C9_difficulty_ramp (g : Game) (dt : ℚ) (input : Input) (rnd : Nat → ℚ) :
    (g.update dt input rnd).difficulty = min 1 ((g.update dt input rnd).elapsed / 90) ∧
    (g.update dt input rnd).speed = 150 + 320 * (g.update dt input rnd).difficulty ∧
    (90 ≤ (g.update dt input rnd).elapsed →
      (g.update dt input rnd).difficulty = 1 ∧ (g.update dt input rnd).speed = 470) ∧
    (∀ (now : ℚ) (pre post : List Step), (∀ s ∈ pre ++ post, 0 ≤ s.dt) →
      0 ≤ ((g.start now input rnd).run pre).difficulty ∧
      ((g.start now input rnd).run pre).difficulty ≤ 1 ∧
      ((g.start now input rnd).run pre).difficulty ≤
        ((g.start now input rnd).run (pre ++ post)).difficulty ∧
      (90 ≤ ((g.start now input rnd).run pre).elapsed →
        ((g.start now input rnd).run pre).difficulty = 1 ∧
        ((g.start now input rnd).run pre).speed = 470)) := by
  have h90 : ∀ e : ℚ, 90 ≤ e → min 1 (e / 90) = 1 := by
    intro e he
    apply min_eq_left
    rw [le_div_iff₀ (by norm_num : (0 : ℚ) < 90)]
    linarith
  obtain ⟨h1, h2⟩ := update_difficulty g dt input rnd
  have he := update_elapsed g dt input rnd
  refine ⟨by rw [h1, he], by rw [h2, h1], ?_, ?_⟩
  · intro h
    rw [he] at h
    rw [h2, h1, h90 _ h]
    norm_num
  · intro now pre post hall
    obtain ⟨hs0, hs1, hs2⟩ := start_elapsed g now input rnd
    obtain ⟨hd, hsp⟩ := run_ramp (g.start now input rnd) pre ⟨hs1, hs2⟩
    obtain ⟨hd2, _⟩ := run_ramp (g.start now input rnd) (pre ++ post) ⟨hs1, hs2⟩
    have hpre : 0 ≤ dtSum pre :=
      dtSum_nonneg pre (fun s hs => hall s (List.mem_append_left _ hs))
    have hpost : 0 ≤ dtSum post :=
      dtSum_nonneg post (fun s hs => hall s (List.mem_append_right _ hs))
    have hel : ((g.start now input rnd).run pre).elapsed = dtSum pre := by
      rw [run_elapsed, hs0, zero_add]
    have hel2 : ((g.start now input rnd).run (pre ++ post)).elapsed =
        dtSum pre + dtSum post := by
      rw [run_append, run_elapsed, hel]
    refine ⟨?_, ?_, ?_, ?_⟩
    · rw [hd, hel]
      exact le_min (by norm_num) (div_nonneg hpre (by norm_num))
    · rw [hd]
      exact min_le_left _ _
    · rw [hd, hd2, hel, hel2]
      apply min_le_min le_rfl
      apply div_le_div_of_nonneg_right _ (by norm_num : (0 : ℚ) ≤ 90)
      linarith
    · intro h
      rw [hsp, hd, h90 _ h]
      norm_num

theorem C9_difficulty_ramp_witness :
    (∀ s ∈ [coast 0.033] ++ [coast 0.033, coast 0.02], 0 ≤ s.dt) ∧
    ((fresh.start 0 idle (rndConst (1 / 2))).run [coast 0.033]).difficulty ≤
      ((fresh.start 0 idle (rndConst (1 / 2))).run
        ([coast 0.033] ++ [coast 0.033, coast 0.02])).difficulty :=
  ⟨by decide!,
   ((C9_difficulty_ramp fresh 0 idle (rndConst (1 / 2))).2.2.2 0
      [coast 0.033] [coast 0.033, coast 0.02] (by decide!)).2.2.1⟩

/-- C10. In every `update(dt)` the pickup pass removes exactly the pickups whose bounding
box overlaps the actor's after the movement phase, keeps the others in their order, and
adds `30 * m` to the score for each removed pickup, `m` being the multiplier at the start
of the step: `k` overlapping pickups add `30 * k * m`, and one pickup at `m = 2` adds
exactly `60`. The step ends with that collection and score when a hazard is hit, and
otherwise with the collection pruned of off-screen pickups and the score increased by the
time-based accrual. -/
theorem C10_pickup_pass (g : Game) (dt : ℚ) (input : Input) (rnd : Nat → ℚ) :
    (g.advance dt input rnd).orbPass.orbs =
      (g.advance dt input rnd).orbs.filter
        (fun c => !rectsOverlap (g.advance dt input rnd).player.getBounds c.getBounds) ∧
    (g.advance dt input rnd).orbPass.score =
      g.score + 30 * g.multiplier *
        ((g.advance dt input rnd).orbs.countP
          (fun c => rectsOverlap (g.advance dt input rnd).player.getBounds c.getBounds) : ℕ) ∧
    (g.multiplier = 2 →
      (g.advance dt input rnd).orbs.countP
          (fun c => rectsOverlap (g.advance dt input rnd).player.getBounds c.getBounds) = 1 →
      (g.advance dt input rnd).orbPass.score = g.score + 60) ∧
    ((g.advance dt input rnd).orbPass.obstaclePass.2 = true →
      (g.update dt input rnd).orbs = (g.advance dt input rnd).orbPass.orbs ∧
      (g.update dt input rnd).score = (g.advance dt input rnd).orbPass.score) ∧
    ((g.advance dt input rnd).orbPass.obstaclePass.2 = false →
      (g.update dt input rnd).orbs =
        (g.advance dt input rnd).orbPass.orbs.filter (fun c => !c.offscreen g.height) ∧
      (g.update dt input rnd).score =
        max 0 ((g.advance dt input rnd).orbPass.score +
          (12 + (g.update dt input rnd).difficulty * 24) * dt *
            (g.update dt input rnd).multiplier)) := by
  have hs := orbPass_score (g.advance dt input rnd)
  rw [advance_score, advance_multiplier] at hs
  refine ⟨orbPass_orbs _, hs, ?_, (update_after_orbPass g dt input rnd).1,
    (update_after_orbPass g dt input rnd).2⟩
  intro hm hk
  rw [hs, hm, hk]
  norm_num

theorem C10_pickup_pass_witness :
    pickupState.multiplier = 2 ∧
    (pickupState.advance 0 idle (rndConst (1 / 2))).orbs.countP
      (fun c => rectsOverlap (pickupState.advance 0 idle (rndConst (1 / 2))).player.getBounds
        c.getBounds) = 1 ∧
    (pickupState.advance 0 idle (rndConst (1 / 2))).orbPass.score = pickupState.score + 60 ∧
    (pickupState.update 0 idle (rndConst (1 / 2))).score = 60 ∧
    (pickupState.update 0 idle (rndConst (1 / 2))).orbs.length = 0 :=
  ⟨by decide!, by decide!,
   (C10_pickup_pass pickupState 0 idle (rndConst (1 / 2))).2.2.1 (by decide!) (by decide!),
   by decide!, by decide!⟩

/-- C11, as stated, fails on the terminal path. From a running state with nothing off
screen, a step of 33 ms in which one hazard hits the player returns before the pruning of
line 399, and the other hazard, carried below the field by this step, stays in the
collection. -/
theorem C11_counterexample :
    (∀ o ∈ crashLeaveState.obstacles, o.offscreen crashLeaveState.height = false) ∧
    (crashLeaveState.update 0.033 idle (rndConst (1 / 2))).running = false ∧
    (∃ o ∈ (crashLeaveState.update 0.033 idle (rndConst (1 / 2))).obstacles,
      o.offscreen (crashLeaveState.update 0.033 idle (rndConst (1 / 2))).height = true) := by
  decide!

/-- C11, amended. After every `update(dt)` that does not end in a hazard collision (no
hazard overlaps the actor after the movement phase), the hazard collection contains no
hazard with `offscreen()` and the pickup collection no pickup with `offscreen()`. A step
that ends in a collision leaves the hazard collection as the movement phase left it,
unpruned. -/
theorem C11_pruned (g : Game) (dt : ℚ) (input : Input) (rnd : Nat → ℚ) :
    ((∀ ob ∈ (g.advance dt input rnd).obstacles,
        rectsOverlap (g.advance dt input rnd).player.getBounds ob.getBounds = false) →
      (∀ o ∈ (g.update dt input rnd).obstacles,
        o.offscreen (g.update dt input rnd).height = false) ∧
      (∀ c ∈ (g.update dt input rnd).orbs,
        c.offscreen (g.update dt input rnd).height = false)) ∧
    ((∃ ob ∈ (g.advance dt input rnd).obstacles,
        rectsOverlap (g.advance dt input rnd).player.getBounds ob.getBounds = true) →
      (g.update dt input rnd).obstacles = (g.advance dt input rnd).obstacles) := by
  constructor
  · intro hno
    apply update_pruned
    rw [Bool.eq_false_iff, Ne, update_hit_iff]
    rintro ⟨ob, hmem, hov⟩
    rw [hno ob hmem] at hov
    exact absurd hov (by simp)
  · intro hex
    exact (update_of_hit g dt input rnd ((update_hit_iff g dt input rnd).mpr hex)).2.2.2.2.2

theorem C11_pruned_witness :
    (∀ ob ∈ (nearState.advance 0.033 idle (rndConst (1 / 2))).obstacles,
      rectsOverlap (nearState.advance 0.033 idle (rndConst (1 / 2))).player.getBounds
        ob.getBounds = false) ∧
    (∀ o ∈ (nearState.update 0.033 idle (rndConst (1 / 2))).obstacles,
      o.offscreen (nearState.update 0.033 idle (rndConst (1 / 2))).height = false) :=
  ⟨by decide!,
   ((C11_pruned nearState 0.033 idle (rndConst (1 / 2))).1 (by decide!)).1⟩

/-- C12, as stated, fails for the spawn timers. They are ticked at lines 351 and 355,
before any collision test: in a step of 33 ms that ends in a hazard collision,
`spawnCooldown` goes from `0.5` to `0.467` and `orbCooldown` from `1.5` to `1.467`. -/
theorem C12_counterexample :
    (crashState.update 0.033 idle (rndConst (1 / 2))).running = false ∧
    crashState.spawnCooldown = 1 / 2 ∧
    (crashState.update 0.033 idle (rndConst (1 / 2))).spawnCooldown = 1 / 2 - 0.033 ∧
    crashState.orbCooldown = 1.5 ∧
    (crashState.update 0.033 idle (rndConst (1 / 2))).orbCooldown = 1.5 - 0.033 := by
  decide!

/-- C12, amended. In every step in which a hazard overlaps the actor, `update` returns
without the tail of the step: no time-based accrual is added, so the score changes only by
the pickup bonuses `30 * multiplier` of that step, and `nearMissGrace` is not decremented
(it is unchanged, or `0.25` if the reward fired before the overlapping hazard was
reached). `spawnCooldown` and `orbCooldown` have already been ticked at the start of the
step: each is decremented by `dt`, or re-armed when that brings it to zero or below. -/
theorem C12_hit_frame (g : Game) (dt : ℚ) (input : Input) (rnd : Nat → ℚ)
    (hex : ∃ ob ∈ (g.advance dt input rnd).obstacles,
      rectsOverlap (g.advance dt input rnd).player.getBounds ob.getBounds = true) :
    (g.update dt input rnd).running = false ∧
    (g.update dt input rnd).score =
      g.score + 30 * g.multiplier *
        ((g.advance dt input rnd).orbs.countP
          (fun c => rectsOverlap (g.advance dt input rnd).player.getBounds c.getBounds) : ℕ) ∧
    (g.update dt input rnd).nearMissGrace =
      (if g.nearMissFires dt input rnd = true then 0.25 else g.nearMissGrace) ∧
    (g.update dt input rnd).spawnCooldown =
      (if g.spawnCooldown - dt ≤ 0 then
        clamp (0.8 - min 1 ((g.elapsed + dt) / 90) * 0.55) 0.18 0.8
       else g.spawnCooldown - dt) ∧
    (g.update dt input rnd).orbCooldown =
      (if g.orbCooldown - dt ≤ 0 then
        clamp (2.8 - min 1 ((g.elapsed + dt) / 90) * 1.5) 0.9 3.0
       else g.orbCooldown - dt) := by
  obtain ⟨h1, h2, h3, h4, h5, _⟩ :=
    update_of_hit g dt input rnd ((update_hit_iff g dt input rnd).mpr hex)
  have hs := orbPass_score (g.advance dt input rnd)
  rw [advance_score, advance_multiplier] at hs
  refine ⟨h1, ?_, h5, ?_, ?_⟩
  · rw [h2, hs]
  · rw [h3, advance_spawnCooldown]
  · rw [h4, advance_orbCooldown]

theorem C12_hit_frame_witness :
    (∃ ob ∈ (crashState.advance 0.033 idle (rndConst (1 / 2))).obstacles,
      rectsOverlap (crashState.advance 0.033 idle (rndConst (1 / 2))).player.getBounds
        ob.getBounds = true) ∧
    (crashState.update 0.033 idle (rndConst (1 / 2))).nearMissGrace =
      (if crashState.nearMissFires 0.033 idle (rndConst (1 / 2)) = true then 0.25
       else crashState.nearMissGrace) :=
  ⟨by decide!, (C12_hit_frame crashState 0.033 idle (rndConst (1 / 2)) (by decide!)).2.2.1⟩

/-- C13. The lower bound of the near-miss band never decides. For the actor's hitbox
(height `38 * 0.9 = 34.2`) and a hazard of height in `[18, 30]` that does not overlap it
and whose centre is vertically closer than 22, the horizontal centre distance is at least
the sum of the half-widths; so on such a pair the condition of line 384 equals
`vertical distance < 22 ∧ half-widths sum ≤ horizontal distance < half-widths sum + 18`,
and also the condition with the `> half-widths sum - 14` test dropped. Dropping that test
changes the result of no step: for a player of height 38, hazards of height in `[18, 30]`
and random draws in `[0, 1)`, `updateNoLower` and `update` return the same state. -/
theorem C13_lower_bound_redundant (g : Game) (dt : ℚ) (input : Input) (rnd : Nat → ℚ)
    (hp : g.player.height = 38) (hob : ∀ ob ∈ g.obstacles, 18 ≤ ob.h ∧ ob.h ≤ 30)
    (hr : ∀ k, 0 ≤ rnd k ∧ rnd k < 1) :
    (∀ (p : Player) (ob : Obstacle), p.height = 38 → 18 ≤ ob.h → ob.h ≤ 30 →
      rectsOverlap p.getBounds ob.getBounds = false →
      (|(ob.getBounds.y + ob.getBounds.h / 2) - (p.getBounds.y + p.getBounds.h / 2)| < 22 →
        p.getBounds.w / 2 + ob.getBounds.w / 2 ≤
          |(ob.getBounds.x + ob.getBounds.w / 2) - (p.getBounds.x + p.getBounds.w / 2)|) ∧
      nearMiss p.getBounds ob.getBounds = nearMissBand p.getBounds ob.getBounds ∧
      nearMiss p.getBounds ob.getBounds = nearMissNoLower p.getBounds ob.getBounds) ∧
    g.updateNoLower dt input rnd = g.update dt input rnd := by
  refine ⟨?_, updateNoLower_eq g dt input rnd hp hob hr⟩
  intro p ob hph h18 _ hno
  have hh : 44 < p.getBounds.h + ob.getBounds.h := by
    simp only [Player.getBounds, Obstacle.getBounds, hph]
    norm_num
    linarith
  obtain ⟨h1, h2⟩ := nearMiss_forms p.getBounds ob.getBounds hh hno
  exact ⟨fun hv => gap_of_no_overlap _ _ hv hh hno, h2.symm, h1.symm⟩

theorem C13_lower_bound_redundant_witness :
    nearState.player.height = 38 ∧
    (∀ ob ∈ nearState.obstacles, 18 ≤ ob.h ∧ ob.h ≤ 30) ∧
    (∀ k, 0 ≤ rndConst (1 / 2) k ∧ rndConst (1 / 2) k < 1) ∧
    (nearState.updateNoLower 0.033 idle (rndConst (1 / 2))).multiplier =
      (nearState.update 0.033 idle (rndConst (1 / 2))).multiplier :=
  ⟨by decide!, by decide!, fun _ => by unfold rndConst; norm_num,
   congrArg Game.multiplier
     (C13_lower_bound_redundant nearState 0.033 idle (rndConst (1 / 2)) (by decide!)
       (by decide!) (fun _ => by unfold rndConst; norm_num)).2⟩

end Glide
